import Mathlib

/-!
Verification development for the asset-transfer chaincode.

The repository holds two near-duplicate variants of the contract:
  * the role-gated variant (`chaincode-assettransfer.go`), embedded below
    under plain names (`join`, `transfer`, `Init`, `Query`, `invoke`);
  * the role-less variant (`src/unnamed/part_000`), embedded under `p0`-
    prefixed names.

World state is modelled as an association list from string keys to values.
Stored byte strings are modelled by the inductive `Val`: a JSON-encoded
user record (`vUser`), a JSON-encoded list of ids (`vIndex`), or a plain
string such as the decimal balances stored by the role-less variant
(`vStr`).  `json.Unmarshal` of absent bytes or of bytes of the wrong shape
fails, which the embeddings translate branch-for-branch.  `json.Marshal`
of a string slice or of the `user` struct cannot fail in Go, so the dead
marshal-error branches of the source have no counterpart here.

Storage faults (the error returns of `GetState` / `PutState` / `DelState`)
are injected through a schedule of booleans carried by the stub: each
storage call consumes one entry, and a `true` entry makes that call return
an error.  Every storage call is also appended to a trace, so ordering
claims ("the record is written before the index") and counting claims
("exactly one compensating delete is attempted") are statements about the
trace.

Go `panic` is modelled by the `GoRes.fatal` constructor; a function result
`GoRes.ret bytes err` models a normal `return bytes, err`.  Balance and
quantity arithmetic follows Go 64-bit `int` semantics: every addition and
subtraction of the source is wrapped through `wrap` (two-complement
wrap-around at the int64 bounds), `strconv.Atoi` rejects integers outside
the int64 range (`goAtoi`), and `json.Unmarshal` into the `int` field of
the user struct fails for numbers outside that range, which the
`getUserDetails` embedding reproduces.
-/

namespace AssetTransfer

structure User where
  id : String
  role : String
  assetBalance : Int
deriving DecidableEq

inductive Val where
  | vUser (u : User)
  | vIndex (l : List String)
  | vStr (s : String)
deriving DecidableEq

abbrev WS := List (String × Val)

def wsGet (st : WS) (k : String) : Option Val :=
  (st.find? (fun p => p.1 == k)).map (fun p => p.2)

def wsPut (st : WS) (k : String) (v : Val) : WS := (k, v) :: st

def wsDel (st : WS) (k : String) : WS := st.filter (fun p => p.1 != k)

/-- A storage operation recorded in the trace: kind, key, (value), success. -/
inductive OpEv where
  | getEv (k : String) (ok : Bool)
  | putEv (k : String) (v : Val) (ok : Bool)
  | delEv (k : String) (ok : Bool)
deriving DecidableEq

/-- The chaincode stub: world state, schedule of injected storage faults,
and the trace of storage operations performed so far. -/
structure Stub where
  st : WS
  faults : List Bool
  tr : List OpEv
deriving DecidableEq

def popFault (s : Stub) : Bool × Stub :=
  match s.faults with
  | [] => (false, s)
  | b :: rest => (b, { s with faults := rest })

def storeFailMsg : String := "simulated storage failure"

def stGetState (s : Stub) (k : String) : Except String (Option Val) × Stub :=
  match popFault s with
  | (true, s1) => (Except.error storeFailMsg, { s1 with tr := s1.tr ++ [OpEv.getEv k false] })
  | (false, s1) => (Except.ok (wsGet s1.st k), { s1 with tr := s1.tr ++ [OpEv.getEv k true] })

def stPutState (s : Stub) (k : String) (v : Val) : Option String × Stub :=
  match popFault s with
  | (true, s1) => (some storeFailMsg, { s1 with tr := s1.tr ++ [OpEv.putEv k v false] })
  | (false, s1) =>
    (none, { s1 with st := wsPut s1.st k v, tr := s1.tr ++ [OpEv.putEv k v true] })

def stDelState (s : Stub) (k : String) : Option String × Stub :=
  match popFault s with
  | (true, s1) => (some storeFailMsg, { s1 with tr := s1.tr ++ [OpEv.delEv k false] })
  | (false, s1) =>
    (none, { s1 with st := wsDel s1.st k, tr := s1.tr ++ [OpEv.delEv k true] })

/-- The write events (puts and deletes) of a trace. -/
def writeEvs (tr : List OpEv) : List OpEv :=
  tr.filter (fun e => match e with | OpEv.getEv _ _ => false | _ => true)

/- Decimal integer printing and parsing, modelling `strconv.Itoa` and
`strconv.Atoi`.  `natDigitsAux` is fuel-based so that concrete values
reduce in the kernel. -/

def digitChar : Nat → Char
  | 0 => '0' | 1 => '1' | 2 => '2' | 3 => '3' | 4 => '4'
  | 5 => '5' | 6 => '6' | 7 => '7' | 8 => '8' | _ => '9'

def digitVal? (c : Char) : Option Nat :=
  if 48 ≤ c.toNat ∧ c.toNat ≤ 57 then some (c.toNat - 48) else none

def natDigitsAux : Nat → Nat → List Char
  | 0, _ => []
  | fuel+1, n => if n < 10 then [digitChar n] else natDigitsAux fuel (n / 10) ++ [digitChar (n % 10)]

def natDigits (n : Nat) : List Char := natDigitsAux (n + 1) n

def goItoa (q : Int) : String :=
  if q < 0 then String.mk ('-' :: natDigits q.natAbs) else String.mk (natDigits q.toNat)

def digitsVal (l : List Char) : Nat :=
  l.foldl (fun a c => 10 * a + (digitVal? c).getD 0) 0

def allDigits (l : List Char) : Bool := l.all (fun c => (digitVal? c).isSome)

def parseDigits (l : List Char) : Option Nat :=
  if l ≠ [] ∧ allDigits l then some (digitsVal l) else none

def maxInt64 : Int := 9223372036854775807
def minInt64 : Int := -9223372036854775808
def twoPow63 : Int := 9223372036854775808
def twoPow64 : Int := 18446744073709551616

/-- Wrap-around of Go 64-bit two-complement `int` arithmetic. -/
def wrap (x : Int) : Int := (x + twoPow63) % twoPow64 - twoPow63

def inRange64 (x : Int) : Prop := minInt64 ≤ x ∧ x ≤ maxInt64

instance (x : Int) : Decidable (inRange64 x) :=
  inferInstanceAs (Decidable (minInt64 ≤ x ∧ x ≤ maxInt64))

/-- Range filter of `strconv.Atoi` for a nonnegative parse: values above
the int64 maximum are a range error. -/
def rangePos (n : Nat) : Option Int :=
  if (n : Int) ≤ maxInt64 then some ((n : Int)) else none

/-- Range filter of `strconv.Atoi` for a negative parse. -/
def rangeNeg (n : Nat) : Option Int :=
  if minInt64 ≤ -(n : Int) then some (-(n : Int)) else none

def goAtoi (x : String) : Option Int :=
  match x.data with
  | [] => none
  | c :: rest =>
    if c = '-' then (parseDigits rest).bind rangeNeg
    else if c = '+' then (parseDigits rest).bind rangePos
    else (parseDigits (c :: rest)).bind rangePos

/-- Go `string(i)` on an integer yields the string of that code point. -/
def goIntAsRuneStr (q : Int) : String := String.mk [Char.ofNat q.toNat]

def quoteStr (x : String) : String := "\"" ++ x ++ "\""

def marshalStrList (l : List String) : String :=
  "[" ++ String.intercalate "," (l.map quoteStr) ++ "]"

def marshalUser (u : User) : String :=
  "\x7b\"id\":" ++ quoteStr u.id ++ ",\"role\":" ++ quoteStr u.role ++
    ",\"assetBalance\":" ++ goItoa u.assetBalance ++ "\x7d"

/- Constants of the role-gated variant. -/

def varJoinedUsersIndex : String := "_joinedUsersIndex"
def varJoinedUsers : String := "_joinedUsers_"
def initialAssetBalance : Int := 100
def roleAdmin : String := "admin"
def roleUser : String := "user"

def usersKey (id : String) : String := varJoinedUsers ++ id

/-- Models `strings.Index(x, "_") == 0`. -/
def underscoreFirst (x : String) : Bool := x.data.head? == some '_'

inductive DetRes where
  | found (u : User)
  | errRes (msg : String)
  | fatal (msg : String)
deriving DecidableEq

def detailsUnmarshalFatalMsg : String :=
  "ERROR: Failed to unmarshal User Information. Source: getUserDetails."

def detailsGetErrMsg (userId d : String) : String :=
  "ERROR: Failure while getting User Details for User ID " ++ userId ++
    ". Source: getUserDetails. Details: " ++ d

/-- Embedding of `getUserDetails` of the role-gated variant: a storage error is returned,
while absent or wrongly-shaped bytes make the unmarshal panic. -/
def getUserDetails (s : Stub) (userId : String) : DetRes × Stub :=
  match stGetState s (usersKey userId) with
  | (Except.error e, s1) => (DetRes.errRes (detailsGetErrMsg userId e), s1)
  | (Except.ok (some (Val.vUser u)), s1) =>
    if inRange64 u.assetBalance then (DetRes.found u, s1)
    else (DetRes.fatal detailsUnmarshalFatalMsg, s1)
  | (Except.ok _, s1) => (DetRes.fatal detailsUnmarshalFatalMsg, s1)

inductive GoRes where
  | ret (bytes : Option String) (err : Option String)
  | fatal (msg : String)
deriving DecidableEq

def joinHdr : String := "ERROR: Source: join. "
def joinMsgArgs : String :=
  joinHdr ++ "Incorrect number of arguments - expecting 2 (Joinee User ID, Joinee User Role)."
def joinMsgPerm : String :=
  joinHdr ++ "Permission denied - executing User must be admin or assigned an Administrator User Role."
def joinMsgUnderscore : String :=
  joinHdr ++ "Source: First input parameter. User ID of new joinee must not begin with an underscore."
def joinMsgBadRole : String :=
  joinHdr ++ "Source: Second input parameter. Invalid Role for new joinee."
def joinMsgIdxGet : String := joinHdr ++ "Failed to get Index of Joined Users."
def joinMsgIdxUnmarshal : String := joinHdr ++ "Failed to unmarshal Index of Joined Users."
def joinMsgAlreadyExists : String :=
  joinHdr ++ "A User has previously joined with the same User ID."
def joinMsgSaveDetails (jid d : String) : String :=
  joinHdr ++ "Failure while storing User Details for Joinee ID " ++ jid ++ ". Details: " ++ d
def joinMsgIdxSave (jid d : String) : String :=
  joinHdr ++ "Failure while adding Joinee ID " ++ jid ++
    ". to the Index of Joined Users. Details: " ++ d
def joinMsgRollbackOk (jid d : String) : String :=
  joinMsgIdxSave jid d ++
    "\nRolling back addition of new User Details... rollback succeeded for new Joinee ID " ++
    jid ++ "."
def joinMsgRollbackFail (jid d d2 : String) : String :=
  joinMsgIdxSave jid d ++
    "\nRolling back addition of new User Details... ERROR: ROLLBACK FAILED FOR NEW JOINEE ID " ++
    jid ++
    ". A SYSTEM ADMINISTRATOR SHOULD IDEALLY PERFORM MANUALLY ROLLBACK BY DELETING STATE FOR THE FOLLOWING KEY FROM WORLD STATE: " ++
    usersKey jid ++ "\nError Details: " ++ d2

/-- Embedding of `join` of the role-gated variant. -/
def join (s : Stub) (userId userRole : String) (args : List String) : GoRes × Stub :=
  if args.length ≠ 2 then (GoRes.fatal joinMsgArgs, s)
  else if userId ≠ "admin" ∧ userRole ≠ roleAdmin then (GoRes.fatal joinMsgPerm, s)
  else
    let joineeId := args.getD 0 ""
    if underscoreFirst joineeId then (GoRes.fatal joinMsgUnderscore, s)
    else
      let joineeRole := args.getD 1 ""
      if joineeRole ≠ roleAdmin ∧ joineeRole ≠ roleUser then (GoRes.fatal joinMsgBadRole, s)
      else
        match stGetState s varJoinedUsersIndex with
        | (Except.error _, s1) => (GoRes.fatal joinMsgIdxGet, s1)
        | (Except.ok (some (Val.vIndex joinedUsersIndex)), s1) =>
          if joinedUsersIndex.contains joineeId then (GoRes.fatal joinMsgAlreadyExists, s1)
          else
            let joineeKey := usersKey joineeId
            let joineeDetails : User := ⟨joineeId, joineeRole, initialAssetBalance⟩
            match stPutState s1 joineeKey (Val.vUser joineeDetails) with
            | (some e, s2) => (GoRes.fatal (joinMsgSaveDetails joineeId e), s2)
            | (none, s2) =>
              match stPutState s2 varJoinedUsersIndex
                  (Val.vIndex (joinedUsersIndex ++ [joineeId])) with
              | (none, s3) => (GoRes.ret none none, s3)
              | (some e, s3) =>
                match stDelState s3 joineeKey with
                | (none, s4) => (GoRes.fatal (joinMsgRollbackOk joineeId e), s4)
                | (some e2, s4) => (GoRes.fatal (joinMsgRollbackFail joineeId e e2), s4)
        | (Except.ok _, s1) => (GoRes.fatal joinMsgIdxUnmarshal, s1)

def tHdr : String := "ERROR: Source: transfer. "
def tMsgArgs : String :=
  tHdr ++ "Incorrect number of arguments - expecting 3 (Sender ID, Receiver ID, Asset Quantity)."
def tMsgUnderscore : String :=
  tHdr ++ "User IDs of Sender and Receiver must not begin with an underscore."
def tMsgSame : String := tHdr ++ "Sender and Receiver must not be the same User."
def tMsgPerm : String :=
  tHdr ++ "Permission denied - the executing User must match the Sender ID for a successful transfer."
def tMsgAtoi : String :=
  tHdr ++ "Expecting integer value for quantity of Asset to be trasferred."
def tMsgIdxGet : String := tHdr ++ "Failed to get Index of Joined Users."
def tMsgIdxUnmarshal : String := tHdr ++ "Failed to unmarshal Index of Joined Users."
def tMsgSenderNotMember : String :=
  tHdr ++ "Sender is not a member and will have to join the network before attempting this Asset Transfer."
def tMsgReceiverNotMember : String :=
  tHdr ++ "Receiver is not a member and will have to join the network before attempting this Asset Transfer."
def tMsgSenderGet (sid d : String) : String :=
  tHdr ++ "Failed to get User Information for Sender " ++ sid ++ ". Details: " ++ d
def tMsgReceiverGet (rid d : String) : String :=
  tHdr ++ "Failed to get User Information for Receiver " ++ rid ++ ". Details: " ++ d
def tMsgInsufficient (bal : Int) : String :=
  tHdr ++ "Sender does not possess sufficient assets to complete the transaction. senderAssetBalance: " ++
    goIntAsRuneStr bal
def tMsgSaveSender (sid d : String) : String :=
  tHdr ++ "Transaction failed - unable to update Asset Balance for Sender ID " ++ sid ++
    ". Details: " ++ d
def tMsgSaveReceiverPre (rid d : String) : String :=
  tHdr ++ "Transaction failed - unable to update Asset Balance for Receiver ID " ++ rid ++
    ". Details: " ++ d ++ "\nAttempting to roll back deduction from Sender account... "
def tMsgRollbackOk (rid d : String) (q : Int) (sid : String) : String :=
  tMsgSaveReceiverPre rid d ++ "successfully rolled back asset deduction of " ++
    goIntAsRuneStr q ++ " from Sender ID " ++ sid ++ "."
def tMsgRollbackFail (rid d : String) (q : Int) (sid : String) (sb : Int) (d2 : String) : String :=
  tMsgSaveReceiverPre rid d ++ "CRITICAL ERROR: UNABLE TO ROLL BACK ASSET DEDUCTION OF " ++
    goIntAsRuneStr q ++ " FROM SENDER ID " ++ sid ++
    ". WORLD STATE IS INCONSISTENT - TRANSACTION MUST BE MANUALLY REVERSED BY AN ADMINISTRATOR! Correct value: " ++
    goItoa sb ++ "\nError details: " ++ d2

/-- Embedding of `transfer` of the role-gated variant.  Note the compensating write of
the source (line 239) goes to the bare key `senderId`, not to the
prefixed participant key. -/
def transfer (s : Stub) (userId _userRole : String) (args : List String) : GoRes × Stub :=
  if args.length ≠ 3 then (GoRes.ret none (some tMsgArgs), s)
  else
    let senderId := args.getD 0 ""
    let receiverId := args.getD 1 ""
    if underscoreFirst senderId || underscoreFirst receiverId then
      (GoRes.fatal tMsgUnderscore, s)
    else if senderId = receiverId then (GoRes.fatal tMsgSame, s)
    else if userId ≠ senderId then (GoRes.fatal tMsgPerm, s)
    else
      match goAtoi (args.getD 2 "") with
      | none => (GoRes.fatal tMsgAtoi, s)
      | some assetQuantity =>
        match stGetState s varJoinedUsersIndex with
        | (Except.error _, s1) => (GoRes.fatal tMsgIdxGet, s1)
        | (Except.ok (some (Val.vIndex joinedUsersIndex)), s1) =>
          if ¬ joinedUsersIndex.contains senderId then (GoRes.fatal tMsgSenderNotMember, s1)
          else if ¬ joinedUsersIndex.contains receiverId then
            (GoRes.fatal tMsgReceiverNotMember, s1)
          else
            match getUserDetails s1 senderId with
            | (DetRes.errRes e, s2) => (GoRes.fatal (tMsgSenderGet senderId e), s2)
            | (DetRes.fatal m, s2) => (GoRes.fatal m, s2)
            | (DetRes.found senderDetails, s2) =>
              let senderAssetBalance := senderDetails.assetBalance
              let newSenderAssetBalance := wrap (senderAssetBalance - assetQuantity)
              if newSenderAssetBalance < 0 then
                (GoRes.fatal (tMsgInsufficient senderAssetBalance), s2)
              else
                match getUserDetails s2 receiverId with
                | (DetRes.errRes e, s3) => (GoRes.fatal (tMsgReceiverGet receiverId e), s3)
                | (DetRes.fatal m, s3) => (GoRes.fatal m, s3)
                | (DetRes.found receiverDetails, s3) =>
                  let newSender : User := { senderDetails with assetBalance := newSenderAssetBalance }
                  let newReceiver : User :=
                    { receiverDetails with
                      assetBalance := wrap (receiverDetails.assetBalance + assetQuantity) }
                  match stPutState s3 (usersKey senderId) (Val.vUser newSender) with
                  | (some e, s4) => (GoRes.fatal (tMsgSaveSender senderId e), s4)
                  | (none, s4) =>
                    match stPutState s4 (usersKey receiverId) (Val.vUser newReceiver) with
                    | (none, s5) => (GoRes.ret none none, s5)
                    | (some e, s5) =>
                      let restored : User := { senderDetails with assetBalance := senderAssetBalance }
                      match stPutState s5 senderId (Val.vUser restored) with
                      | (none, s6) =>
                        (GoRes.fatal (tMsgRollbackOk receiverId e assetQuantity senderId), s6)
                      | (some e2, s6) =>
                        (GoRes.fatal
                          (tMsgRollbackFail receiverId e assetQuantity senderId senderAssetBalance e2), s6)
        | (Except.ok _, s1) => (GoRes.fatal tMsgIdxUnmarshal, s1)

def initMsgArgs : String := "Incorrect number of arguments for Init invocation - expecting none."

/-- Embedding of `Init` of the role-gated variant (the role-less one is identical up to
the index key name; see `p0Init`). -/
def Init (s : Stub) (_function : String) (args : List String) : GoRes × Stub :=
  if args.length ≠ 0 then (GoRes.ret none (some initMsgArgs), s)
  else
    match stPutState s varJoinedUsersIndex (Val.vIndex []) with
    | (none, s1) => (GoRes.ret none none, s1)
    | (some e, s1) => (GoRes.ret none (some e), s1)

def queryMsgArgs : String := "Incorrect number of arguments - expecting 1 (User ID)."
def queryMsgGetBalanceFail (uid d : String) : String :=
  "Failed to get Asset Balance for User ID " ++ uid ++ ". Details: " ++ d
def queryMsgUnknown (f : String) : String := "Query() received unknown function: " ++ f
def qryHdr : String := "ERROR: Source: Query - getalljoinedusers. "

/-- Embedding of `Query` of the role-gated variant.  There is no recover in `Query`, so
a panic inside `getUserDetails` aborts the query (`GoRes.fatal`). -/
def Query (s : Stub) (function : String) (args : List String) : GoRes × Stub :=
  if function = "getassetbalance" then
    if args.length ≠ 1 then (GoRes.ret none (some queryMsgArgs), s)
    else
      match getUserDetails s (args.getD 0 "") with
      | (DetRes.errRes e, s1) =>
        (GoRes.ret none (some (queryMsgGetBalanceFail (args.getD 0 "") e)), s1)
      | (DetRes.fatal m, s1) => (GoRes.fatal m, s1)
      | (DetRes.found u, s1) => (GoRes.ret (some (goItoa u.assetBalance)) none, s1)
  else if function = "getalljoinedusers" then
    match stGetState s varJoinedUsersIndex with
    | (Except.error _, s1) => (GoRes.fatal (qryHdr ++ "Failed to get Index of Joined Users."), s1)
    | (Except.ok (some (Val.vIndex l)), s1) => (GoRes.ret (some (marshalStrList l)) none, s1)
    | (Except.ok _, s1) => (GoRes.fatal (qryHdr ++ "Failed to unmarshal Index of Joined Users."), s1)
  else (GoRes.ret none (some (queryMsgUnknown function)), s)

/-- Result of the role-gated `Invoke`: either a returned error (the
deferred handler always overwrites the returned values on a recovered
panic), or a crash of the handler itself (`recover().(string)` applied to
`nil` panics, with no further recovery). -/
inductive InvokeOut where
  | retOut (err : String)
  | crashOut
deriving DecidableEq

def invHdr : String := "ERROR: Source: Invoke. "
def invMsgUnknown (f : String) : String :=
  invHdr ++ "Invoke() called with unknown function name: " ++ f

/-- The body of `Invoke` before the deferred handler: resolve the invoker
record, then dispatch.  The invoker id stands for the value of
`ReadCertAttribute("username")`. -/
def invokeBody (s : Stub) (userId function : String) (args : List String) : GoRes × Stub :=
  match getUserDetails s userId with
  | (DetRes.errRes e, s1) => (GoRes.ret none (some (invHdr ++ "Details: " ++ e)), s1)
  | (DetRes.fatal m, s1) => (GoRes.fatal m, s1)
  | (DetRes.found userDetails, s1) =>
    if function = "init" then Init s1 "init" args
    else if function = "join" then join s1 userId userDetails.role args
    else if function = "transfer" then transfer s1 userId userDetails.role args
    else (GoRes.ret none (some (invMsgUnknown function)), s1)

/-- Embedding of `Invoke` with its deferred handler: a recovered panic string becomes a
returned error; on any non-panicking path `recover()` is `nil`, the type
assertion `recover().(string)` itself panics, and the call crashes. -/
def invoke (s : Stub) (userId function : String) (args : List String) : InvokeOut × Stub :=
  match invokeBody s userId function args with
  | (GoRes.fatal m, s1) => (InvokeOut.retOut (invHdr ++ "Details: " ++ m), s1)
  | (GoRes.ret _ _, s1) => (InvokeOut.crashOut, s1)

/- The role-less variant (src/unnamed/part_000). -/

def joinedUsersStr : String := "_joinedUsers"
def initialAssetBalanceStr : String := "100"

/-- part_000 ignores the error of `json.Unmarshal` on the index, so absent
or wrongly-shaped bytes silently yield the nil (empty) slice. -/
def p0unmarshalIdx (v : Option Val) : List String :=
  match v with
  | some (Val.vIndex l) => l
  | _ => []

/-- Go `string(bytes)` of a stored value, for `strconv.Atoi`: only a plain
stored string can parse; absent bytes give the empty string. -/
def p0valAtoi (v : Option Val) : Option Int :=
  match v with
  | some (Val.vStr str) => goAtoi str
  | _ => none

def p0valBytes (v : Option Val) : Option String :=
  match v with
  | some (Val.vStr str) => some str
  | some (Val.vIndex l) => some (marshalStrList l)
  | some (Val.vUser u) => some (marshalUser u)
  | none => none

def p0joinMsgArgs : String := "Incorrect number of arguments for join function - expecting 1."
def p0joinMsgUnderscore : String := "User ID of new joinee must not begin with an underscore."
def p0joinMsgIdxGet : String := "Failed to get Index of Joined Users."
def p0joinMsgAlready : String := "A User has previously joined with the same User ID."
def p0joinMsgIdxSave : String := "Unable to add joinee to the Index of Joined Users."
def p0joinMsgBalInit : String :=
  "Unable to initialize Asset Balance entry for the joinee User ID. Rolling back addition of User..."

/-- Embedding of `join` of the role-less variant.  The index is written first and the
participant record second; the rollback statements of the source (lines
72-75) stand after a `return` and are unreachable, so they have no
counterpart here. -/
def p0join (s : Stub) (args : List String) : GoRes × Stub :=
  if args.length ≠ 1 then (GoRes.ret none (some p0joinMsgArgs), s)
  else
    let joineeId := args.getD 0 ""
    if underscoreFirst joineeId then (GoRes.ret none (some p0joinMsgUnderscore), s)
    else
      match stGetState s joinedUsersStr with
      | (Except.error _, s1) => (GoRes.ret none (some p0joinMsgIdxGet), s1)
      | (Except.ok v, s1) =>
        let joinedUsersIndex := p0unmarshalIdx v
        if joinedUsersIndex.contains joineeId then (GoRes.ret none (some p0joinMsgAlready), s1)
        else
          match stPutState s1 joinedUsersStr (Val.vIndex (joinedUsersIndex ++ [joineeId])) with
          | (some _, s2) => (GoRes.ret none (some p0joinMsgIdxSave), s2)
          | (none, s2) =>
            match stPutState s2 joineeId (Val.vStr initialAssetBalanceStr) with
            | (some _, s3) => (GoRes.ret none (some p0joinMsgBalInit), s3)
            | (none, s3) => (GoRes.ret none none, s3)

/-- Models `strings.Index(x, "_") == 1` of the transfer in part_000: the first
underscore sits at byte index 1. -/
def underscoreIdxOne (x : String) : Bool :=
  x.data.head? != some '_' && x.data.get? 1 == some '_'

def p0tMsgArgs : String := "Incorrect number of arguments for Init invocation - expecting none."
def p0tMsgAtoi : String := "Expecting integer value for quantity of Asset to be trasferred."
def p0tMsgUnderscore : String := "User IDs of Sender and Receiver must not begin with an underscore."
def p0tMsgSame : String := "Sender and Receiver must not be the same User."
def p0tMsgIdxGet : String := "Failed to get Index of Joined Users."
def p0tMsgSenderNotMember : String :=
  "Sender is not a member and will have to join the network before attempting this Asset Transfer."
def p0tMsgReceiverNotMember : String :=
  "Receiver is not a member and will have to join the network before attempting this Asset Transfer."
def p0tMsgSenderBalGet (sid d : String) : String :=
  "Failed to get Asset Balance for sender " ++ sid ++ ". Details: " ++ d
def p0tMsgReceiverBalGet (rid d : String) : String :=
  "Failed to get Asset Balance for receiver " ++ rid ++ ". Details: " ++ d
def p0tMsgSenderBalParse (sid : String) : String :=
  "Transaction failed - failed to retrieve Asset Balance for Sender ID " ++ sid ++ "."
def p0tMsgReceiverBalParse (rid : String) : String :=
  "Transaction failed - failed to retrieve Asset Balance for Receiver ID " ++ rid ++ "."
def p0tMsgInsufficient : String :=
  "Sender does not possess sufficient assets to complete the transaction."
def p0tMsgSaveSender (sid d : String) : String :=
  "Transaction failed - unable to update Asset Balance for Sender ID " ++ sid ++
    " . Error details: " ++ d
def p0tMsgSaveReceiver (rid d : String) : String :=
  "Transaction failed - unable to update Asset Balance for Receiver ID " ++ rid ++
    " . Error details: " ++ d

/-- Embedding of `transfer` of the role-less variant.  No invoker identity is consulted
anywhere.  The rollback statements of the source (lines 160-164) stand
after a `return` and are unreachable, so they have no counterpart here. -/
def p0transfer (s : Stub) (args : List String) : GoRes × Stub :=
  if args.length ≠ 3 then (GoRes.ret none (some p0tMsgArgs), s)
  else
    let senderId := args.getD 0 ""
    let receiverId := args.getD 1 ""
    match goAtoi (args.getD 2 "") with
    | none => (GoRes.ret none (some p0tMsgAtoi), s)
    | some assetQuantity =>
      if underscoreIdxOne senderId || underscoreIdxOne receiverId then
        (GoRes.ret none (some p0tMsgUnderscore), s)
      else if senderId = receiverId then (GoRes.ret none (some p0tMsgSame), s)
      else
        match stGetState s joinedUsersStr with
        | (Except.error _, s1) => (GoRes.ret none (some p0tMsgIdxGet), s1)
        | (Except.ok v, s1) =>
          let joinedUsersIndex := p0unmarshalIdx v
          if ¬ joinedUsersIndex.contains senderId then
            (GoRes.ret none (some p0tMsgSenderNotMember), s1)
          else if ¬ joinedUsersIndex.contains receiverId then
            (GoRes.ret none (some p0tMsgReceiverNotMember), s1)
          else
            match stGetState s1 senderId with
            | (Except.error e, s2) => (GoRes.ret none (some (p0tMsgSenderBalGet senderId e)), s2)
            | (Except.ok sv, s2) =>
              match stGetState s2 receiverId with
              | (Except.error e, s3) =>
                (GoRes.ret none (some (p0tMsgReceiverBalGet receiverId e)), s3)
              | (Except.ok rv, s3) =>
                match p0valAtoi sv with
                | none => (GoRes.ret none (some (p0tMsgSenderBalParse senderId)), s3)
                | some senderAssetBalance =>
                  let newSenderAssetBalance := wrap (senderAssetBalance - assetQuantity)
                  if newSenderAssetBalance < 0 then
                    (GoRes.ret none (some p0tMsgInsufficient), s3)
                  else
                    match p0valAtoi rv with
                    | none => (GoRes.ret none (some (p0tMsgReceiverBalParse receiverId)), s3)
                    | some receiverAssetBalance =>
                      let newReceiverAssetBalance := wrap (receiverAssetBalance + assetQuantity)
                      match stPutState s3 senderId (Val.vStr (goItoa newSenderAssetBalance)) with
                      | (some e, s4) =>
                        (GoRes.ret none (some (p0tMsgSaveSender senderId e)), s4)
                      | (none, s4) =>
                        match stPutState s4 receiverId
                            (Val.vStr (goItoa newReceiverAssetBalance)) with
                        | (some e, s5) =>
                          (GoRes.ret none (some (p0tMsgSaveReceiver receiverId e)), s5)
                        | (none, s5) => (GoRes.ret none none, s5)

def p0Init (s : Stub) (_function : String) (args : List String) : GoRes × Stub :=
  if args.length ≠ 0 then (GoRes.ret none (some initMsgArgs), s)
  else
    match stPutState s joinedUsersStr (Val.vIndex []) with
    | (none, s1) => (GoRes.ret none none, s1)
    | (some e, s1) => (GoRes.ret none (some e), s1)

def p0queryMsgArgs : String := "Incorrect number of arguments to Query() - expecting 1."
def p0queryMsgGetFail (uid d : String) : String :=
  "Failed to get Asset Balance for User ID " ++ uid ++ ". Details: " ++ d

/-- Embedding of `Query` of the role-less variant: `getassetbalance` returns the raw
bytes of the key, so a never-joined id yields a successful return with nil
bytes.  The empty `summary` branch of the source falls through to the
unknown-function error. -/
def p0Query (s : Stub) (function : String) (args : List String) : GoRes × Stub :=
  if function = "getassetbalance" then
    if args.length ≠ 1 then (GoRes.ret none (some p0queryMsgArgs), s)
    else
      match stGetState s (args.getD 0 "") with
      | (Except.error e, s1) =>
        (GoRes.ret none (some (p0queryMsgGetFail (args.getD 0 "") e)), s1)
      | (Except.ok v, s1) => (GoRes.ret (p0valBytes v) none, s1)
  else (GoRes.ret none (some (queryMsgUnknown function)), s)

/- Derived state observations and sequences of committed operations. -/

/-- The stored balance of a participant record in the role-gated schema. -/
def balanceOf (st : WS) (id : String) : Option Int :=
  match wsGet st (usersKey id) with
  | some (Val.vUser u) => some u.assetBalance
  | _ => none

/-- The stored balance of a participant in the role-less schema. -/
def p0balanceOf (st : WS) (id : String) : Option Int :=
  match wsGet st id with
  | some (Val.vStr str) => goAtoi str
  | _ => none

/-- One committed mutating operation of the role-gated variant. -/
inductive OpCall where
  | initC (args : List String)
  | joinC (userId userRole : String) (args : List String)
  | transferC (userId userRole : String) (args : List String)
deriving DecidableEq

def applyOp (s : Stub) (c : OpCall) : Stub :=
  match c with
  | OpCall.initC args => (Init s "init" args).2
  | OpCall.joinC u r args => (join s u r args).2
  | OpCall.transferC u r args => (transfer s u r args).2

def runOps (s : Stub) (ops : List OpCall) : Stub := ops.foldl applyOp s

/-- Every stored participant record has a nonnegative balance. -/
def valNN : Val → Bool
  | Val.vUser u => decide (0 ≤ u.assetBalance)
  | _ => true

def StNonNeg (st : WS) : Prop := ∀ p ∈ st, valNN p.2 = true

/-- Every stored index value is duplicate-free. -/
def valIdxOk : Val → Bool
  | Val.vIndex l => decide l.Nodup
  | _ => true

def StIdxNodup (st : WS) : Prop := ∀ p ∈ st, valIdxOk p.2 = true

/-- The accepted quantity argument of a transfer, if any, is nonnegative. -/
def qtyOkArgs (args : List String) : Bool :=
  match goAtoi (args.getD 2 "") with
  | some q => decide (0 ≤ q)
  | none => true

/-- The receiver record read by a transfer, if any, can absorb the
accepted quantity without exceeding the int64 maximum. -/
def noOvfArgs (st : WS) (args : List String) : Bool :=
  match goAtoi (args.getD 2 ""), balanceOf st (args.getD 1 "") with
  | some q, some rb => decide (rb + q ≤ maxInt64)
  | _, _ => true

def opSafe (st : WS) : OpCall → Bool
  | OpCall.transferC _ _ args => qtyOkArgs args && noOvfArgs st args
  | _ => true

/-- Along a sequence of operations, every transfer has a nonnegative
accepted quantity and an overflow-free receiver update. -/
def opsSafe : Stub → List OpCall → Bool
  | _, [] => true
  | s, c :: rest => opSafe s.st c && opsSafe (applyOp s c) rest


instance (st : WS) : Decidable (StNonNeg st) :=
  inferInstanceAs (Decidable (∀ p ∈ st, valNN p.2 = true))

instance (st : WS) : Decidable (StIdxNodup st) :=
  inferInstanceAs (Decidable (∀ p ∈ st, valIdxOk p.2 = true))

/- Concrete states used as inputs of the witnesses and counterexamples. -/

def stubEmpty : Stub := ⟨[], [], []⟩

def stubInitialized : Stub := ⟨[(varJoinedUsersIndex, Val.vIndex [])], [], []⟩

def stubAliceBob : Stub :=
  ⟨[(varJoinedUsersIndex, Val.vIndex ["alice", "bob"]),
    (usersKey "alice", Val.vUser ⟨"alice", "user", 100⟩),
    (usersKey "bob", Val.vUser ⟨"bob", "user", 100⟩)], [], []⟩

def stubAliceBob10 : Stub :=
  ⟨[(varJoinedUsersIndex, Val.vIndex ["alice", "bob"]),
    (usersKey "alice", Val.vUser ⟨"alice", "user", 100⟩),
    (usersKey "bob", Val.vUser ⟨"bob", "user", 10⟩)], [], []⟩

/-- State `stubAliceBob` with the fifth storage call (the receiver record write of
a transfer) failing. -/
def stubC3 : Stub := ⟨stubAliceBob.st, [false, false, false, false, true, false], []⟩

/-- State with the receiver at the int64 maximum, probing wrap-around. -/
def stubBobMax : Stub :=
  ⟨[(varJoinedUsersIndex, Val.vIndex ["alice", "bob"]),
    (usersKey "alice", Val.vUser ⟨"alice", "user", 100⟩),
    (usersKey "bob", Val.vUser ⟨"bob", "user", maxInt64⟩)], [], []⟩

def stubAliceOnly : Stub :=
  ⟨[(varJoinedUsersIndex, Val.vIndex ["alice"]),
    (usersKey "alice", Val.vUser ⟨"alice", "user", 100⟩)], [], []⟩

def stubAdminJoined : Stub :=
  ⟨[(varJoinedUsersIndex, Val.vIndex ["admin"]),
    (usersKey "admin", Val.vUser ⟨"admin", "admin", 100⟩)], [], []⟩

def p0stubInitialized : Stub := ⟨[(joinedUsersStr, Val.vIndex [])], [], []⟩

def p0stubAliceBob : Stub :=
  ⟨[(joinedUsersStr, Val.vIndex ["alice", "bob"]),
    ("alice", Val.vStr "100"), ("bob", Val.vStr "100")], [], []⟩

/-- State `p0stubInitialized` with the third storage call (the record write of a
role-less join) failing. -/
def p0stubJoinFail : Stub := ⟨p0stubInitialized.st, [false, false, true], []⟩

/-- The state after init() then join("alice","user") by the bootstrap
identity, in the role-gated variant. -/
def scenarioC8 : Stub := (join (Init stubEmpty "init" []).2 "admin" "" ["alice", "user"]).2

theorem data_append (a b : String) : (a ++ b).data = a.data ++ b.data := by
  cases a; cases b; rfl

theorem usersKey_inj {a b : String} (h : usersKey a = usersKey b) : a = b := by
  unfold usersKey varJoinedUsers at h
  have hd := congrArg String.data h
  rw [data_append, data_append] at hd
  have h2 := List.append_cancel_left hd
  cases a; cases b
  exact congrArg String.mk h2

theorem usersKey_ne_idx (a : String) : usersKey a ≠ varJoinedUsersIndex := by
  intro h
  have hd := congrArg String.data h
  unfold usersKey at hd
  rw [data_append] at hd
  have h12 : (varJoinedUsers.data ++ a.data)[12]? = varJoinedUsersIndex.data[12]? := by
    rw [hd]
  rw [List.getElem?_append_left (by decide)] at h12
  simp [varJoinedUsers, varJoinedUsersIndex] at h12

theorem usersKey_head (a : String) : (usersKey a).data.head? = some '_' := by
  have h := data_append varJoinedUsers a
  unfold usersKey
  rw [h]
  rfl

theorem ne_usersKey_of_head {x : String} (h : x.data.head? ≠ some '_') (a : String) :
    x ≠ usersKey a := by
  intro he
  exact h (he ▸ usersKey_head a)

theorem ne_idx_of_head {x : String} (h : x.data.head? ≠ some '_') :
    x ≠ varJoinedUsersIndex := by
  intro he
  apply h
  rw [he]
  rfl

theorem underscoreFirst_false {x : String} (h : underscoreFirst x = false) :
    x.data.head? ≠ some '_' := by
  unfold underscoreFirst at h
  simpa using h

theorem wsGet_put_same (st : WS) (k : String) (v : Val) : wsGet (wsPut st k v) k = some v := by
  simp [wsGet, wsPut, List.find?]

theorem wsGet_put_ne (st : WS) {k k' : String} (v : Val) (h : k' ≠ k) :
    wsGet (wsPut st k v) k' = wsGet st k' := by
  simp only [wsGet, wsPut, List.find?]
  have : (k == k') = false := by
    simp [Ne.symm h]
  rw [this]

theorem stGetState_ok {s : Stub} {k : String} {v : Option Val} {s' : Stub}
    (h : stGetState s k = (Except.ok v, s')) : s'.st = s.st ∧ v = wsGet s.st k := by
  rcases s with ⟨st, faults, tr⟩
  cases faults with
  | nil =>
    simp [stGetState, popFault] at h
    obtain ⟨h1, h2⟩ := h
    subst h2
    simp [h1]
  | cons b rest =>
    cases b with
    | false =>
      simp [stGetState, popFault] at h
      obtain ⟨h1, h2⟩ := h
      subst h2
      simp [h1]
    | true => simp [stGetState, popFault] at h

theorem stGetState_err {s : Stub} {k : String} {e : String} {s' : Stub}
    (h : stGetState s k = (Except.error e, s')) : s'.st = s.st := by
  rcases s with ⟨st, faults, tr⟩
  cases faults with
  | nil => simp [stGetState, popFault] at h
  | cons b rest =>
    cases b with
    | false => simp [stGetState, popFault] at h
    | true =>
      simp [stGetState, popFault] at h
      rw [← h.2]

theorem stPutState_ok {s : Stub} {k : String} {v : Val} {s' : Stub}
    (h : stPutState s k v = (none, s')) : s'.st = wsPut s.st k v := by
  rcases s with ⟨st, faults, tr⟩
  cases faults with
  | nil =>
    simp [stPutState, popFault] at h
    rw [← h]
  | cons b rest =>
    cases b with
    | false =>
      simp [stPutState, popFault] at h
      rw [← h]
    | true => simp [stPutState, popFault] at h

theorem stPutState_err {s : Stub} {k : String} {v : Val} {e : String} {s' : Stub}
    (h : stPutState s k v = (some e, s')) : s'.st = s.st := by
  rcases s with ⟨st, faults, tr⟩
  cases faults with
  | nil => simp [stPutState, popFault] at h
  | cons b rest =>
    cases b with
    | false => simp [stPutState, popFault] at h
    | true =>
      simp [stPutState, popFault] at h
      rw [← h.2]

theorem stDelState_ok {s : Stub} {k : String} {s' : Stub}
    (h : stDelState s k = (none, s')) : s'.st = wsDel s.st k := by
  rcases s with ⟨st, faults, tr⟩
  cases faults with
  | nil =>
    simp [stDelState, popFault] at h
    rw [← h]
  | cons b rest =>
    cases b with
    | false =>
      simp [stDelState, popFault] at h
      rw [← h]
    | true => simp [stDelState, popFault] at h

theorem stDelState_err {s : Stub} {k : String} {e : String} {s' : Stub}
    (h : stDelState s k = (some e, s')) : s'.st = s.st := by
  rcases s with ⟨st, faults, tr⟩
  cases faults with
  | nil => simp [stDelState, popFault] at h
  | cons b rest =>
    cases b with
    | false => simp [stDelState, popFault] at h
    | true =>
      simp [stDelState, popFault] at h
      rw [← h.2]

theorem getUserDetails_found {s : Stub} {uid : String} {u : User} {s' : Stub}
    (h : getUserDetails s uid = (DetRes.found u, s')) :
    s'.st = s.st ∧ wsGet s.st (usersKey uid) = some (Val.vUser u) ∧
      inRange64 u.assetBalance := by
  unfold getUserDetails at h
  split at h
  · simp at h
  · next w s1 hg =>
    split at h
    · next hr =>
      simp only [Prod.mk.injEq, DetRes.found.injEq] at h
      obtain ⟨hw, hs⟩ := h
      subst hw
      subst hs
      obtain ⟨h1, h2⟩ := stGetState_ok hg
      exact ⟨h1, h2.symm, hr⟩
    · simp at h
  · simp at h

theorem getUserDetails_fatal {s : Stub} {uid : String} {m : String} {s' : Stub}
    (h : getUserDetails s uid = (DetRes.fatal m, s')) : s'.st = s.st := by
  unfold getUserDetails at h
  split at h
  · simp at h
  · next w s1 hg =>
    split at h
    · simp at h
    · simp only [Prod.mk.injEq] at h
      rw [← h.2]
      exact (stGetState_ok hg).1
  · next v s1 hg =>
    simp only [Prod.mk.injEq] at h
    rw [← h.2]
    exact (stGetState_ok hg).1

theorem getUserDetails_err {s : Stub} {uid : String} {m : String} {s' : Stub}
    (h : getUserDetails s uid = (DetRes.errRes m, s')) : s'.st = s.st := by
  unfold getUserDetails at h
  split at h
  · next e s1 hg =>
    simp only [Prod.mk.injEq] at h
    rw [← h.2]
    exact stGetState_err hg
  · next w s1 hg =>
    split at h <;> simp at h
  · simp at h

theorem transfer_success_balances {s : Stub} {uid urole a b qs : String} {s' : Stub}
    (h : transfer s uid urole [a, b, qs] = (GoRes.ret none none, s')) :
    ∃ su ru : User, ∃ q : Int,
      goAtoi qs = some q ∧ a ≠ b ∧
      wsGet s.st (usersKey a) = some (Val.vUser su) ∧
      wsGet s.st (usersKey b) = some (Val.vUser ru) ∧
      wsGet s'.st (usersKey a) =
        some (Val.vUser { su with assetBalance := wrap (su.assetBalance - q) }) ∧
      wsGet s'.st (usersKey b) =
        some (Val.vUser { ru with assetBalance := wrap (ru.assetBalance + q) }) := by
  unfold transfer at h
  simp only [List.length_cons, List.length_nil, List.getD, List.get?, Option.getD_some] at h
  split at h
  · simp at h
  split at h
  · simp at h
  split at h
  · simp at h
  next hab =>
  split at h
  · simp at h
  split at h
  · simp at h
  next q hq =>
  split at h
  · simp at h
  on_goal 2 => simp at h
  next v s1 hg =>
  split at h
  · simp at h
  split at h
  · simp at h
  split at h
  · simp at h
  · simp at h
  next su s2 hsu =>
  split at h
  · simp at h
  split at h
  · simp at h
  · simp at h
  next ru s3 hru =>
  split at h
  · simp at h
  next s4 hput1 =>
  split at h
  case _ s5 hput2 =>
    simp only [Prod.mk.injEq] at h
    obtain ⟨-, hs'⟩ := h
    subst hs'
    obtain ⟨h1st, h1get⟩ := stGetState_ok hg
    obtain ⟨h2st, h2get, h2rng⟩ := getUserDetails_found hsu
    obtain ⟨h3st, h3get, h3rng⟩ := getUserDetails_found hru
    have h4st := stPutState_ok hput1
    have h5st := stPutState_ok hput2
    refine ⟨su, ru, q, hq, hab, ?_, ?_, ?_, ?_⟩
    · rw [← h1st]; exact h2get
    · rw [← h1st, ← h2st]; exact h3get
    · rw [h5st, h4st]
      rw [wsGet_put_ne _ _ (fun hk => hab (usersKey_inj hk)), wsGet_put_same]
    · rw [h5st]
      rw [wsGet_put_same]
  case _ e s5 hput2 =>
    split at h
    · simp at h
    · simp at h


theorem natDigitsAux_congr : ∀ (f f' n : Nat), n < f → n < f' → natDigitsAux f n = natDigitsAux f' n := by
  intro f
  induction f with
  | zero => omega
  | succ g ih =>
    intro f' n hf hf'
    cases f' with
    | zero => omega
    | succ g' =>
      rw [natDigitsAux, natDigitsAux]
      by_cases h10 : n < 10
      · simp [h10]
      · simp only [h10, if_false]
        have hlt : n / 10 < n := Nat.div_lt_self (by omega) (by omega)
        rw [ih g' (n / 10) (by omega) (by omega)]

theorem natDigits_eq (n : Nat) :
    natDigits n = if n < 10 then [digitChar n] else natDigits (n / 10) ++ [digitChar (n % 10)] := by
  unfold natDigits
  rw [natDigitsAux]
  by_cases h10 : n < 10
  · simp [h10]
  · simp only [h10, if_false]
    have hlt : n / 10 < n := Nat.div_lt_self (by omega) (by omega)
    rw [natDigitsAux_congr n (n / 10 + 1) (n / 10) (by omega) (by omega)]

theorem digitVal_digitChar {d : Nat} (h : d < 10) : digitVal? (digitChar d) = some d := by
  interval_cases d <;> decide

theorem natDigits_all (n : Nat) : allDigits (natDigits n) = true := by
  induction n using Nat.strong_induction_on with
  | _ n ih =>
    rw [natDigits_eq]
    by_cases h10 : n < 10
    · simp only [h10, if_true, allDigits, List.all_cons, List.all_nil, Bool.and_true]
      rw [digitVal_digitChar h10]
      rfl
    · simp only [h10, if_false, allDigits, List.all_append]
      have h1 := ih (n / 10) (Nat.div_lt_self (by omega) (by omega))
      unfold allDigits at h1
      rw [h1]
      simp only [List.all_cons, List.all_nil, Bool.and_true, Bool.true_and]
      rw [digitVal_digitChar (Nat.mod_lt n (by omega))]
      rfl

theorem natDigits_ne_nil (n : Nat) : natDigits n ≠ [] := by
  rw [natDigits_eq]
  by_cases h10 : n < 10 <;> simp [h10]

theorem digitsVal_from (n : Nat) :
    ∀ a : Nat, (natDigits n).foldl (fun a c => 10 * a + (digitVal? c).getD 0) a =
      a * 10 ^ (natDigits n).length + n := by
  induction n using Nat.strong_induction_on with
  | _ n ih =>
    intro a
    rw [natDigits_eq]
    by_cases h10 : n < 10
    · simp only [h10, if_true, List.foldl_cons, List.foldl_nil, List.length_cons,
        List.length_nil]
      rw [digitVal_digitChar h10]
      simp
      ring
    · simp only [h10, if_false, List.foldl_append, List.foldl_cons, List.foldl_nil,
        List.length_append, List.length_cons, List.length_nil]
      rw [ih (n / 10) (Nat.div_lt_self (by omega) (by omega)) a]
      rw [digitVal_digitChar (Nat.mod_lt n (by omega))]
      simp only [Option.getD_some]
      have he : a * 10 ^ ((natDigits (n / 10)).length + (0 + 1)) =
          (a * 10 ^ (natDigits (n / 10)).length) * 10 := by ring
      rw [he]
      omega

theorem parseDigits_natDigits (n : Nat) : parseDigits (natDigits n) = some n := by
  unfold parseDigits
  rw [if_pos ⟨natDigits_ne_nil n, natDigits_all n⟩]
  unfold digitsVal
  rw [digitsVal_from n 0]
  simp

theorem digit_not_dash {c : Char} (h : (digitVal? c).isSome = true) : c ≠ '-' := by
  intro he
  subst he
  exact absurd h (by decide)

theorem digit_not_plus {c : Char} (h : (digitVal? c).isSome = true) : c ≠ '+' := by
  intro he
  subst he
  exact absurd h (by decide)

theorem goAtoi_mk_cons (c : Char) (l : List Char) :
    goAtoi (String.mk (c :: l)) =
      if c = '-' then (parseDigits l).bind rangeNeg
      else if c = '+' then (parseDigits l).bind rangePos
      else (parseDigits (c :: l)).bind rangePos := rfl

theorem wrap_inRange (x : Int) : inRange64 (wrap x) := by
  have h1 : 0 ≤ (x + twoPow63) % twoPow64 :=
    Int.emod_nonneg _ (by unfold twoPow64; omega)
  have h2 : (x + twoPow63) % twoPow64 < twoPow64 :=
    Int.emod_lt_of_pos _ (by unfold twoPow64; omega)
  unfold inRange64 wrap minInt64 maxInt64
  unfold twoPow63 twoPow64 at *
  omega

theorem wrap_eq_self {x : Int} (h : inRange64 x) : wrap x = x := by
  unfold inRange64 minInt64 maxInt64 at h
  unfold wrap
  rw [Int.emod_eq_of_lt (by unfold twoPow63; omega) (by unfold twoPow63 twoPow64; omega)]
  omega

theorem wrap_emod (x : Int) : wrap x % twoPow64 = x % twoPow64 := by
  unfold wrap
  conv_lhs => rw [Int.sub_emod, Int.emod_emod_of_dvd _ dvd_rfl, ← Int.sub_emod]
  simp

theorem wrap_add_wrap_emod (u v : Int) :
    (wrap u + wrap v) % twoPow64 = (u + v) % twoPow64 := by
  rw [Int.add_emod, wrap_emod, wrap_emod, ← Int.add_emod]

theorem goAtoi_goItoa {q : Int} (hr : inRange64 q) : goAtoi (goItoa q) = some q := by
  unfold inRange64 minInt64 maxInt64 at hr
  unfold goItoa
  by_cases hq : q < 0
  · rw [if_pos hq, goAtoi_mk_cons, if_pos rfl, parseDigits_natDigits]
    show rangeNeg q.natAbs = some q
    unfold rangeNeg minInt64
    rw [if_pos (by omega)]
    congr 1
    omega
  · rw [if_neg hq]
    rcases hd : natDigits q.toNat with _ | ⟨c, rest⟩
    · exact absurd hd (natDigits_ne_nil _)
    · have hall := natDigits_all q.toNat
      rw [hd] at hall
      unfold allDigits at hall
      simp only [List.all_cons, Bool.and_eq_true] at hall
      rw [goAtoi_mk_cons, if_neg (digit_not_dash hall.1), if_neg (digit_not_plus hall.1)]
      rw [← hd, parseDigits_natDigits]
      show rangePos q.toNat = some q
      unfold rangePos maxInt64
      rw [if_pos (by omega)]
      congr 1
      omega

theorem p0transfer_success_balances {s : Stub} {a b qs : String} {s' : Stub}
    (h : p0transfer s [a, b, qs] = (GoRes.ret none none, s')) :
    ∃ sb rb q : Int,
      goAtoi qs = some q ∧ a ≠ b ∧
      p0balanceOf s.st a = some sb ∧
      p0balanceOf s.st b = some rb ∧
      p0balanceOf s'.st a = some (wrap (sb - q)) ∧
      p0balanceOf s'.st b = some (wrap (rb + q)) := by
  unfold p0transfer at h
  simp only [List.length_cons, List.length_nil, List.getD, List.get?, Option.getD_some] at h
  split at h
  · simp at h
  split at h
  · simp at h
  next q hq =>
  split at h
  · simp at h
  split at h
  · simp at h
  next hab =>
  split at h
  · simp at h
  next v s1 hg =>
  split at h
  · simp at h
  split at h
  · simp at h
  split at h
  · simp at h
  next sv s2 hsv =>
  split at h
  · simp at h
  next rv s3 hrv =>
  split at h
  · simp at h
  next sb hsb =>
  split at h
  · simp at h
  split at h
  · simp at h
  next rb hrb =>
  split at h
  · simp at h
  next s4 hput1 =>
  split at h
  · simp at h
  next s5 hput2 =>
  simp only [Prod.mk.injEq] at h
  obtain ⟨-, hs'⟩ := h
  subst hs'
  obtain ⟨h1st, -⟩ := stGetState_ok hg
  obtain ⟨h2st, h2get⟩ := stGetState_ok hsv
  obtain ⟨h3st, h3get⟩ := stGetState_ok hrv
  have h4st := stPutState_ok hput1
  have h5st := stPutState_ok hput2
  refine ⟨sb, rb, q, hq, hab, ?_, ?_, ?_, ?_⟩
  · unfold p0balanceOf
    rw [h1st] at h2get
    rw [← h2get]
    cases sv with
    | none => simp [p0valAtoi] at hsb
    | some v0 =>
      cases v0 with
      | vUser u => simp [p0valAtoi] at hsb
      | vIndex l => simp [p0valAtoi] at hsb
      | vStr str => simpa [p0valAtoi] using hsb
  · unfold p0balanceOf
    rw [h2st, h1st] at h3get
    rw [← h3get]
    cases rv with
    | none => simp [p0valAtoi] at hrb
    | some v0 =>
      cases v0 with
      | vUser u => simp [p0valAtoi] at hrb
      | vIndex l => simp [p0valAtoi] at hrb
      | vStr str => simpa [p0valAtoi] using hrb
  · unfold p0balanceOf
    rw [h5st, h4st]
    rw [wsGet_put_ne _ _ hab, wsGet_put_same]
    exact goAtoi_goItoa (wrap_inRange (sb - q))
  · unfold p0balanceOf
    rw [h5st]
    rw [wsGet_put_same]
    exact goAtoi_goItoa (wrap_inRange (rb + q))

theorem StNonNeg_put {st : WS} {k : String} {v : Val} (h : StNonNeg st) (hv : valNN v = true) :
    StNonNeg (wsPut st k v) := by
  intro p hp
  rcases List.mem_cons.mp hp with h1 | h2
  · subst h1; exact hv
  · exact h p h2

theorem StNonNeg_del {st : WS} {k : String} (h : StNonNeg st) : StNonNeg (wsDel st k) := by
  intro p hp
  exact h p (List.mem_of_mem_filter hp)

theorem StNonNeg_wsGet {st : WS} {k : String} {u : User} (h : StNonNeg st)
    (hg : wsGet st k = some (Val.vUser u)) : 0 ≤ u.assetBalance := by
  unfold wsGet at hg
  rcases hf : st.find? (fun p => p.1 == k) with _ | p
  · rw [hf] at hg; simp at hg
  · rw [hf] at hg
    simp only [Option.map_some'] at hg
    have hm := List.mem_of_find?_eq_some hf
    have hvn := h p hm
    have hp2 : p.2 = Val.vUser u := by simpa using hg
    rw [hp2] at hvn
    simpa [valNN] using hvn

theorem StIdxNodup_put {st : WS} {k : String} {v : Val} (h : StIdxNodup st)
    (hv : valIdxOk v = true) : StIdxNodup (wsPut st k v) := by
  intro p hp
  rcases List.mem_cons.mp hp with h1 | h2
  · subst h1; exact hv
  · exact h p h2

theorem StIdxNodup_del {st : WS} {k : String} (h : StIdxNodup st) : StIdxNodup (wsDel st k) := by
  intro p hp
  exact h p (List.mem_of_mem_filter hp)

theorem StIdxNodup_wsGet {st : WS} {k : String} {l : List String} (h : StIdxNodup st)
    (hg : wsGet st k = some (Val.vIndex l)) : l.Nodup := by
  unfold wsGet at hg
  rcases hf : st.find? (fun p => p.1 == k) with _ | p
  · rw [hf] at hg; simp at hg
  · rw [hf] at hg
    simp only [Option.map_some'] at hg
    have hm := List.mem_of_find?_eq_some hf
    have hvn := h p hm
    have hp2 : p.2 = Val.vIndex l := by simpa using hg
    rw [hp2] at hvn
    simpa [valIdxOk] using hvn

theorem nodup_append_solo {l : List String} {a : String} (h : l.Nodup) (ha : a ∉ l) :
    (l ++ [a]).Nodup := by
  simp [List.nodup_append, h, ha]

theorem contains_false_not_mem {l : List String} {a : String} (h : l.contains a = false) :
    a ∉ l := by
  intro hm
  have : l.contains a = true := List.elem_eq_true_of_mem hm
  rw [h] at this
  exact Bool.false_ne_true this

theorem Init_st_nonneg {s : Stub} {f : String} {args : List String} (h : StNonNeg s.st) :
    StNonNeg ((Init s f args).2).st := by
  unfold Init
  split
  · exact h
  split
  next s1 hput =>
    rw [stPutState_ok hput]
    exact StNonNeg_put h rfl
  next e s1 hput =>
    rw [stPutState_err hput]
    exact h

theorem join_st_nonneg {s : Stub} {uid urole : String} {args : List String} (h : StNonNeg s.st) :
    StNonNeg ((join s uid urole args).2).st := by
  unfold join
  dsimp only
  split
  · exact h
  split
  · exact h
  split
  · exact h
  split
  · exact h
  split
  next s1 hget =>
    rw [stGetState_err hget]
    exact h
  next l s1 hget =>
    have h1 : StNonNeg s1.st := by
      rw [(stGetState_ok hget).1]
      exact h
    split
    · exact h1
    split
    next e s2 hput =>
      rw [stPutState_err hput]
      exact h1
    next s2 hput =>
      have h2 : StNonNeg s2.st := by
        rw [stPutState_ok hput]
        exact StNonNeg_put h1 rfl
      split
      next s3 hput2 =>
        rw [stPutState_ok hput2]
        exact StNonNeg_put h2 rfl
      next e s3 hput2 =>
        have h3 : StNonNeg s3.st := by
          rw [stPutState_err hput2]
          exact h2
        split
        next s4 hdel =>
          rw [stDelState_ok hdel]
          exact StNonNeg_del h3
        next e2 s4 hdel =>
          rw [stDelState_err hdel]
          exact h3
  next v s1 hget =>
    rw [(stGetState_ok hget).1]
    exact h

theorem transfer_st_nonneg {s : Stub} {uid urole : String} {args : List String}
    (h : StNonNeg s.st) (hq : qtyOkArgs args = true) (hovf : noOvfArgs s.st args = true) :
    StNonNeg ((transfer s uid urole args).2).st := by
  unfold transfer
  dsimp only
  split
  · exact h
  split
  · exact h
  split
  · exact h
  split
  · exact h
  split
  · exact h
  next q hqa =>
  have hq0 : 0 ≤ q := by
    unfold qtyOkArgs at hq
    rw [hqa] at hq
    exact of_decide_eq_true hq
  split
  next s1 hget =>
    rw [stGetState_err hget]
    exact h
  next l s1 hget =>
    have hst1 : s1.st = s.st := (stGetState_ok hget).1
    have h1 : StNonNeg s1.st := by
      rw [hst1]
      exact h
    split
    · exact h1
    split
    · exact h1
    split
    next e s2 hdet =>
      rw [getUserDetails_err hdet]
      exact h1
    next m s2 hdet =>
      rw [getUserDetails_fatal hdet]
      exact h1
    next su s2 hdet =>
      obtain ⟨h2st, h2get, h2rng⟩ := getUserDetails_found hdet
      have h2 : StNonNeg s2.st := by
        rw [h2st]
        exact h1
      have hsu0 : 0 ≤ su.assetBalance := StNonNeg_wsGet h1 h2get
      split
      · exact h2
      next hins =>
      split
      next e s3 hdet2 =>
        rw [getUserDetails_err hdet2]
        exact h2
      next m s3 hdet2 =>
        rw [getUserDetails_fatal hdet2]
        exact h2
      next ru s3 hdet2 =>
        obtain ⟨h3st, h3get, h3rng⟩ := getUserDetails_found hdet2
        have h3 : StNonNeg s3.st := by
          rw [h3st]
          exact h2
        have hru0 : 0 ≤ ru.assetBalance := StNonNeg_wsGet h2 h3get
        have hle : ru.assetBalance + q ≤ maxInt64 := by
          unfold noOvfArgs at hovf
          rw [hqa] at hovf
          have hbal : balanceOf s.st (args.getD 1 "") = some ru.assetBalance := by
            unfold balanceOf
            rw [← hst1, ← h2st, h3get]
          rw [hbal] at hovf
          exact of_decide_eq_true hovf
        have hwr : wrap (ru.assetBalance + q) = ru.assetBalance + q := by
          apply wrap_eq_self
          unfold maxInt64 at hle
          unfold inRange64 minInt64 maxInt64
          omega
        split
        next e s4 hput =>
          rw [stPutState_err hput]
          exact h3
        next s4 hput =>
          have h4 : StNonNeg s4.st := by
            rw [stPutState_ok hput]
            refine StNonNeg_put h3 ?_
            simp only [valNN]
            exact decide_eq_true (by omega)
          split
          next s5 hput2 =>
            rw [stPutState_ok hput2]
            refine StNonNeg_put h4 ?_
            simp only [valNN]
            rw [hwr]
            exact decide_eq_true (by omega)
          next e s5 hput2 =>
            have h5 : StNonNeg s5.st := by
              rw [stPutState_err hput2]
              exact h4
            split
            next s6 hput3 =>
              rw [stPutState_ok hput3]
              refine StNonNeg_put h5 ?_
              simp only [valNN]
              exact decide_eq_true (by omega)
            next e2 s6 hput3 =>
              rw [stPutState_err hput3]
              exact h5
  next v s1 hget =>
    rw [(stGetState_ok hget).1]
    exact h

theorem Init_st_nodup {s : Stub} {f : String} {args : List String} (h : StIdxNodup s.st) :
    StIdxNodup ((Init s f args).2).st := by
  unfold Init
  split
  · exact h
  split
  next s1 hput =>
    rw [stPutState_ok hput]
    refine StIdxNodup_put h ?_
    simp [valIdxOk]
  next e s1 hput =>
    rw [stPutState_err hput]
    exact h

theorem join_st_nodup {s : Stub} {uid urole : String} {args : List String} (h : StIdxNodup s.st) :
    StIdxNodup ((join s uid urole args).2).st := by
  unfold join
  dsimp only
  split
  · exact h
  split
  · exact h
  split
  · exact h
  split
  · exact h
  split
  next s1 hget =>
    rw [stGetState_err hget]
    exact h
  next l s1 hget =>
    obtain ⟨h1st, h1get⟩ := stGetState_ok hget
    have h1 : StIdxNodup s1.st := by
      rw [h1st]
      exact h
    have hlnd : l.Nodup := StIdxNodup_wsGet h h1get.symm
    split
    · exact h1
    next hdup =>
    have hnm : args.getD 0 "" ∉ l :=
      contains_false_not_mem (Bool.of_not_eq_true hdup)
    split
    next e s2 hput =>
      rw [stPutState_err hput]
      exact h1
    next s2 hput =>
      have h2 : StIdxNodup s2.st := by
        rw [stPutState_ok hput]
        exact StIdxNodup_put h1 rfl
      split
      next s3 hput2 =>
        rw [stPutState_ok hput2]
        refine StIdxNodup_put h2 ?_
        simp only [valIdxOk]
        exact decide_eq_true (nodup_append_solo hlnd hnm)
      next e s3 hput2 =>
        have h3 : StIdxNodup s3.st := by
          rw [stPutState_err hput2]
          exact h2
        split
        next s4 hdel =>
          rw [stDelState_ok hdel]
          exact StIdxNodup_del h3
        next e2 s4 hdel =>
          rw [stDelState_err hdel]
          exact h3
  next v s1 hget =>
    rw [(stGetState_ok hget).1]
    exact h

theorem transfer_st_nodup {s : Stub} {uid urole : String} {args : List String}
    (h : StIdxNodup s.st) : StIdxNodup ((transfer s uid urole args).2).st := by
  unfold transfer
  dsimp only
  split
  · exact h
  split
  · exact h
  split
  · exact h
  split
  · exact h
  split
  · exact h
  split
  next s1 hget =>
    rw [stGetState_err hget]
    exact h
  next l s1 hget =>
    have h1 : StIdxNodup s1.st := by
      rw [(stGetState_ok hget).1]
      exact h
    split
    · exact h1
    split
    · exact h1
    split
    next e s2 hdet =>
      rw [getUserDetails_err hdet]
      exact h1
    next m s2 hdet =>
      rw [getUserDetails_fatal hdet]
      exact h1
    next su s2 hdet =>
      have h2 : StIdxNodup s2.st := by
        rw [(getUserDetails_found hdet).1]
        exact h1
      split
      · exact h2
      split
      next e s3 hdet2 =>
        rw [getUserDetails_err hdet2]
        exact h2
      next m s3 hdet2 =>
        rw [getUserDetails_fatal hdet2]
        exact h2
      next ru s3 hdet2 =>
        have h3 : StIdxNodup s3.st := by
          rw [(getUserDetails_found hdet2).1]
          exact h2
        split
        next e s4 hput =>
          rw [stPutState_err hput]
          exact h3
        next s4 hput =>
          have h4 : StIdxNodup s4.st := by
            rw [stPutState_ok hput]
            exact StIdxNodup_put h3 rfl
          split
          next s5 hput2 =>
            rw [stPutState_ok hput2]
            exact StIdxNodup_put h4 rfl
          next e s5 hput2 =>
            have h5 : StIdxNodup s5.st := by
              rw [stPutState_err hput2]
              exact h4
            split
            next s6 hput3 =>
              rw [stPutState_ok hput3]
              exact StIdxNodup_put h5 rfl
            next e2 s6 hput3 =>
              rw [stPutState_err hput3]
              exact h5
  next v s1 hget =>
    rw [(stGetState_ok hget).1]
    exact h

theorem runOps_nonneg {ops : List OpCall} :
    ∀ s : Stub, StNonNeg s.st → opsSafe s ops = true →
      StNonNeg ((runOps s ops).st) := by
  induction ops with
  | nil => intro s h _; exact h
  | cons c rest ih =>
    intro s h hops
    unfold opsSafe at hops
    rw [Bool.and_eq_true] at hops
    obtain ⟨hc, hrest⟩ := hops
    have hstep : StNonNeg ((applyOp s c).st) := by
      cases c with
      | initC args => exact Init_st_nonneg h
      | joinC u r args => exact join_st_nonneg h
      | transferC u r args =>
        unfold opSafe at hc
        rw [Bool.and_eq_true] at hc
        exact transfer_st_nonneg h hc.1 hc.2
    exact ih (applyOp s c) hstep hrest

theorem runOps_nodup {ops : List OpCall} :
    ∀ s : Stub, StIdxNodup s.st → StIdxNodup ((runOps s ops).st) := by
  induction ops with
  | nil => intro s h; exact h
  | cons c rest ih =>
    intro s h
    have hstep : StIdxNodup ((applyOp s c).st) := by
      cases c with
      | initC args => exact Init_st_nodup h
      | joinC u r args => exact join_st_nodup h
      | transferC u r args => exact transfer_st_nodup h
    exact ih (applyOp s c) hstep

theorem join_success_balance {s : Stub} {uid urole jid jrole : String} {s' : Stub}
    (h : join s uid urole [jid, jrole] = (GoRes.ret none none, s')) :
    balanceOf s'.st jid = some 100 := by
  unfold join at h
  simp only [List.length_cons, List.length_nil, List.getD, List.get?, Option.getD_some] at h
  split at h
  · simp at h
  split at h
  · simp at h
  split at h
  · simp at h
  split at h
  · simp at h
  split at h
  · simp at h
  on_goal 2 => simp at h
  next l s1 hget =>
  split at h
  · simp at h
  split at h
  · simp at h
  next s2 hput =>
  split at h
  case _ s3 hput2 =>
    simp only [Prod.mk.injEq] at h
    obtain ⟨-, hs'⟩ := h
    subst hs'
    unfold balanceOf
    rw [stPutState_ok hput2, wsGet_put_ne _ _ (usersKey_ne_idx jid),
      stPutState_ok hput, wsGet_put_same]
    rfl
  case _ e s3 hput2 =>
    split at h <;> simp at h

theorem transfer_not_sender {s : Stub} {uid urole a b qs : String} (hne : uid ≠ a) :
    (transfer s uid urole [a, b, qs]).2 = s ∧
    (transfer s uid urole [a, b, qs]).1 ≠ GoRes.ret none none ∧
    (underscoreFirst a = false → underscoreFirst b = false → a ≠ b →
      (transfer s uid urole [a, b, qs]).1 = GoRes.fatal tMsgPerm) := by
  unfold transfer
  simp only [List.length_cons, List.length_nil, List.getD, List.get?, Option.getD_some]
  rw [if_neg (by omega)]
  by_cases hu : (underscoreFirst a || underscoreFirst b) = true
  · rw [if_pos hu]
    refine ⟨rfl, by simp, ?_⟩
    intro ha hb _
    rw [ha, hb] at hu
    simp at hu
  · rw [if_neg hu]
    by_cases hab : a = b
    · rw [if_pos hab]
      refine ⟨rfl, by simp, ?_⟩
      intro _ _ hne2
      exact absurd hab hne2
    · rw [if_neg hab, if_pos hne]
      exact ⟨rfl, by simp, fun _ _ _ => rfl⟩

theorem join_duplicate_rejected {s : Stub} {uid urole jid jrole : String} {l : List String}
    (hf : s.faults = []) (hidx : wsGet s.st varJoinedUsersIndex = some (Val.vIndex l))
    (hmem : jid ∈ l) :
    ((join s uid urole [jid, jrole]).2).st = s.st ∧
    (join s uid urole [jid, jrole]).1 ≠ GoRes.ret none none ∧
    ((uid = "admin" ∨ urole = roleAdmin) → underscoreFirst jid = false →
      (jrole = roleAdmin ∨ jrole = roleUser) →
      (join s uid urole [jid, jrole]).1 = GoRes.fatal joinMsgAlreadyExists) := by
  have hgs : stGetState s varJoinedUsersIndex =
      (Except.ok (some (Val.vIndex l)),
        { s with tr := s.tr ++ [OpEv.getEv varJoinedUsersIndex true] }) := by
    rcases s with ⟨st, faults, tr⟩
    simp only at hf
    subst hf
    simp only [stGetState, popFault]
    simp only at hidx
    rw [hidx]
  unfold join
  simp only [List.length_cons, List.length_nil, List.getD, List.get?, Option.getD_some]
  rw [if_neg (by omega)]
  by_cases hauth : uid ≠ "admin" ∧ urole ≠ roleAdmin
  · rw [if_pos hauth]
    refine ⟨rfl, by simp, ?_⟩
    intro hor _ _
    rcases hor with h1 | h1
    · exact absurd h1 hauth.1
    · exact absurd h1 hauth.2
  · rw [if_neg hauth]
    by_cases hund : underscoreFirst jid = true
    · rw [if_pos hund]
      refine ⟨rfl, by simp, ?_⟩
      intro _ hu _
      rw [hund] at hu
      simp at hu
    · rw [if_neg hund]
      by_cases hrole : jrole ≠ roleAdmin ∧ jrole ≠ roleUser
      · rw [if_pos hrole]
        refine ⟨rfl, by simp, ?_⟩
        intro _ _ hor
        rcases hor with h1 | h1
        · exact absurd h1 hrole.1
        · exact absurd h1 hrole.2
      · rw [if_neg hrole, hgs]
        dsimp only
        rw [if_pos (List.elem_eq_true_of_mem hmem)]
        exact ⟨rfl, by simp, fun _ _ _ => rfl⟩

theorem query_missing_user {s : Stub} {a : String}
    (hf : s.faults = []) (hg : wsGet s.st (usersKey a) = none) :
    (Query s "getassetbalance" [a]).1 = GoRes.fatal detailsUnmarshalFatalMsg ∧
    ((Query s "getassetbalance" [a]).2).st = s.st ∧
    writeEvs ((Query s "getassetbalance" [a]).2).tr = writeEvs s.tr := by
  have hgs : stGetState s (usersKey a) =
      (Except.ok none, { s with tr := s.tr ++ [OpEv.getEv (usersKey a) true] }) := by
    rcases s with ⟨st, faults, tr⟩
    simp only at hf
    subst hf
    simp only [stGetState, popFault]
    simp only at hg
    rw [hg]
  unfold Query
  rw [if_pos rfl]
  simp only [List.length_cons, List.length_nil, List.getD, List.get?, Option.getD_some]
  rw [if_neg (by omega)]
  unfold getUserDetails
  rw [hgs]
  refine ⟨rfl, rfl, ?_⟩
  simp [writeEvs, List.filter_append]

theorem p0query_missing_user {s : Stub} {a : String}
    (hf : s.faults = []) (hg : wsGet s.st a = none) :
    (p0Query s "getassetbalance" [a]).1 = GoRes.ret none none ∧
    ((p0Query s "getassetbalance" [a]).2).st = s.st ∧
    writeEvs ((p0Query s "getassetbalance" [a]).2).tr = writeEvs s.tr := by
  have hgs : stGetState s a =
      (Except.ok none, { s with tr := s.tr ++ [OpEv.getEv a true] }) := by
    rcases s with ⟨st, faults, tr⟩
    simp only at hf
    subst hf
    simp only [stGetState, popFault]
    simp only at hg
    rw [hg]
  unfold p0Query
  rw [if_pos rfl]
  simp only [List.length_cons, List.length_nil, List.getD, List.get?, Option.getD_some]
  rw [if_neg (by omega)]
  rw [hgs]
  refine ⟨rfl, rfl, ?_⟩
  simp [writeEvs, List.filter_append]

theorem wsGet_del_same (st : WS) (k : String) : wsGet (wsDel st k) k = none := by
  induction st with
  | nil => rfl
  | cons p rest ih =>
    unfold wsDel at ih ⊢
    by_cases hp : p.1 = k
    · simp only [List.filter_cons]
      rw [if_neg (by simp [hp])]
      exact ih
    · simp only [List.filter_cons]
      rw [if_pos (by simp [hp])]
      unfold wsGet
      simp only [List.find?_cons]
      have : (p.1 == k) = false := by simp [hp]
      rw [this]
      exact ih

theorem join_idxfail_behavior {st : WS} {tr : List OpEv} {uid urole jid jrole : String}
    {l : List String} {b : Bool}
    (hidx : wsGet st varJoinedUsersIndex = some (Val.vIndex l))
    (hnm : jid ∉ l)
    (hauth : uid = "admin" ∨ urole = roleAdmin)
    (hund : underscoreFirst jid = false)
    (hrole : jrole = roleAdmin ∨ jrole = roleUser) :
    (join ⟨st, [false, false, true, b], tr⟩ uid urole [jid, jrole]).1 =
      GoRes.fatal (if b then joinMsgRollbackFail jid storeFailMsg storeFailMsg
                   else joinMsgRollbackOk jid storeFailMsg) ∧
    writeEvs ((join ⟨st, [false, false, true, b], tr⟩ uid urole [jid, jrole]).2).tr =
      writeEvs tr ++
        [OpEv.putEv (usersKey jid) (Val.vUser ⟨jid, jrole, initialAssetBalance⟩) true,
         OpEv.putEv varJoinedUsersIndex (Val.vIndex (l ++ [jid])) false,
         OpEv.delEv (usersKey jid) (!b)] ∧
    (b = true →
      wsGet ((join ⟨st, [false, false, true, b], tr⟩ uid urole [jid, jrole]).2).st
          (usersKey jid) = some (Val.vUser ⟨jid, jrole, initialAssetBalance⟩)) ∧
    (b = false →
      wsGet ((join ⟨st, [false, false, true, b], tr⟩ uid urole [jid, jrole]).2).st
          (usersKey jid) = none) := by
  have hrun : join ⟨st, [false, false, true, b], tr⟩ uid urole [jid, jrole] =
      (GoRes.fatal (if b then joinMsgRollbackFail jid storeFailMsg storeFailMsg
                    else joinMsgRollbackOk jid storeFailMsg),
       ⟨(if b then wsPut st (usersKey jid) (Val.vUser ⟨jid, jrole, initialAssetBalance⟩)
         else wsDel (wsPut st (usersKey jid) (Val.vUser ⟨jid, jrole, initialAssetBalance⟩))
           (usersKey jid)),
        [],
        tr ++ [OpEv.getEv varJoinedUsersIndex true,
               OpEv.putEv (usersKey jid) (Val.vUser ⟨jid, jrole, initialAssetBalance⟩) true,
               OpEv.putEv varJoinedUsersIndex (Val.vIndex (l ++ [jid])) false,
               OpEv.delEv (usersKey jid) (!b)]⟩) := by
    unfold join
    simp only [List.length_cons, List.length_nil, List.getD, List.get?, Option.getD_some]
    rw [if_neg (by omega)]
    rw [if_neg (by tauto)]
    rw [if_neg (by rw [hund]; simp)]
    rw [if_neg (by tauto)]
    have hgs : stGetState ⟨st, [false, false, true, b], tr⟩ varJoinedUsersIndex =
        (Except.ok (some (Val.vIndex l)),
         ⟨st, [false, true, b], tr ++ [OpEv.getEv varJoinedUsersIndex true]⟩) := by
      simp [stGetState, popFault, hidx]
    rw [hgs]
    dsimp only
    rw [if_neg (fun hc => hnm (List.mem_of_elem_eq_true hc))]
    have hput1 : stPutState ⟨st, [false, true, b], tr ++ [OpEv.getEv varJoinedUsersIndex true]⟩
        (usersKey jid) (Val.vUser ⟨jid, jrole, initialAssetBalance⟩) =
        (none, ⟨wsPut st (usersKey jid) (Val.vUser ⟨jid, jrole, initialAssetBalance⟩),
          [true, b],
          tr ++ [OpEv.getEv varJoinedUsersIndex true,
                 OpEv.putEv (usersKey jid) (Val.vUser ⟨jid, jrole, initialAssetBalance⟩) true]⟩) := by
      simp [stPutState, popFault]
    rw [hput1]
    dsimp only
    have hput2 : stPutState
        ⟨wsPut st (usersKey jid) (Val.vUser ⟨jid, jrole, initialAssetBalance⟩),
          [true, b],
          tr ++ [OpEv.getEv varJoinedUsersIndex true,
                 OpEv.putEv (usersKey jid) (Val.vUser ⟨jid, jrole, initialAssetBalance⟩) true]⟩
        varJoinedUsersIndex (Val.vIndex (l ++ [jid])) =
        (some storeFailMsg,
         ⟨wsPut st (usersKey jid) (Val.vUser ⟨jid, jrole, initialAssetBalance⟩),
          [b],
          tr ++ [OpEv.getEv varJoinedUsersIndex true,
                 OpEv.putEv (usersKey jid) (Val.vUser ⟨jid, jrole, initialAssetBalance⟩) true,
                 OpEv.putEv varJoinedUsersIndex (Val.vIndex (l ++ [jid])) false]⟩) := by
      simp [stPutState, popFault]
    rw [hput2]
    dsimp only
    cases b with
    | false =>
      have hdel : stDelState
          ⟨wsPut st (usersKey jid) (Val.vUser ⟨jid, jrole, initialAssetBalance⟩),
            [false],
            tr ++ [OpEv.getEv varJoinedUsersIndex true,
                   OpEv.putEv (usersKey jid) (Val.vUser ⟨jid, jrole, initialAssetBalance⟩) true,
                   OpEv.putEv varJoinedUsersIndex (Val.vIndex (l ++ [jid])) false]⟩
          (usersKey jid) =
          (none,
           ⟨wsDel (wsPut st (usersKey jid) (Val.vUser ⟨jid, jrole, initialAssetBalance⟩))
              (usersKey jid),
            [],
            tr ++ [OpEv.getEv varJoinedUsersIndex true,
                   OpEv.putEv (usersKey jid) (Val.vUser ⟨jid, jrole, initialAssetBalance⟩) true,
                   OpEv.putEv varJoinedUsersIndex (Val.vIndex (l ++ [jid])) false,
                   OpEv.delEv (usersKey jid) true]⟩) := by
        simp [stDelState, popFault]
      rw [hdel]
      simp
    | true =>
      have hdel : stDelState
          ⟨wsPut st (usersKey jid) (Val.vUser ⟨jid, jrole, initialAssetBalance⟩),
            [true],
            tr ++ [OpEv.getEv varJoinedUsersIndex true,
                   OpEv.putEv (usersKey jid) (Val.vUser ⟨jid, jrole, initialAssetBalance⟩) true,
                   OpEv.putEv varJoinedUsersIndex (Val.vIndex (l ++ [jid])) false]⟩
          (usersKey jid) =
          (some storeFailMsg,
           ⟨wsPut st (usersKey jid) (Val.vUser ⟨jid, jrole, initialAssetBalance⟩),
            [],
            tr ++ [OpEv.getEv varJoinedUsersIndex true,
                   OpEv.putEv (usersKey jid) (Val.vUser ⟨jid, jrole, initialAssetBalance⟩) true,
                   OpEv.putEv varJoinedUsersIndex (Val.vIndex (l ++ [jid])) false,
                   OpEv.delEv (usersKey jid) false]⟩) := by
        simp [stDelState, popFault]
      rw [hdel]
      simp
  rw [hrun]
  refine ⟨rfl, ?_, ?_, ?_⟩
  · simp only [writeEvs, List.filter_append]
    cases b <;> rfl
  · intro hb
    subst hb
    simp only [if_pos rfl]
    exact wsGet_put_same st (usersKey jid) _
  · intro hb
    subst hb
    simp only [Bool.false_eq_true, if_neg]
    exact wsGet_del_same _ _

/-- C1 (counterexample): with the receiver at the int64 maximum and the
accepted quantity 1, the transfer returns success but the receiver
balance wraps to the int64 minimum, so the integer sum of the two
balances is not conserved. -/
theorem claim_C1_counterexample :
    balanceOf stubBobMax.st "alice" = some 100 ∧
    balanceOf stubBobMax.st "bob" = some maxInt64 ∧
    (transfer stubBobMax "alice" "user" ["alice", "bob", "1"]).1 = GoRes.ret none none ∧
    balanceOf ((transfer stubBobMax "alice" "user" ["alice", "bob", "1"]).2).st "alice" =
      some 99 ∧
    balanceOf ((transfer stubBobMax "alice" "user" ["alice", "bob", "1"]).2).st "bob" =
      some minInt64 ∧
    (100 : Int) + maxInt64 ≠ 99 + minInt64 := by
  refine ⟨by decide, by decide, by decide, by decide, by decide, by decide⟩

/-- C1 (amended): for every transfer invocation that returns success — in
the role-gated variant and in the role-less variant — the sum of the
sender and receiver stored balances is conserved modulo 2^64 (Go 64-bit
wrap-around), and conserved exactly whenever the computed sender and
receiver balances stay within the int64 range; at the boundary the Go
arithmetic wraps and exact integer conservation fails (see the
counterexample). -/
theorem claim_C1_conservation_mod :
    (∀ (s : Stub) (uid urole a b qs : String) (s' : Stub) (q sb rb sb' rb' : Int),
      transfer s uid urole [a, b, qs] = (GoRes.ret none none, s') →
      goAtoi qs = some q →
      balanceOf s.st a = some sb → balanceOf s.st b = some rb →
      balanceOf s'.st a = some sb' → balanceOf s'.st b = some rb' →
      (sb + rb) % twoPow64 = (sb' + rb') % twoPow64 ∧
      (inRange64 (sb - q) → inRange64 (rb + q) → sb + rb = sb' + rb')) ∧
    (∀ (s : Stub) (a b qs : String) (s' : Stub) (q sb rb sb' rb' : Int),
      p0transfer s [a, b, qs] = (GoRes.ret none none, s') →
      goAtoi qs = some q →
      p0balanceOf s.st a = some sb → p0balanceOf s.st b = some rb →
      p0balanceOf s'.st a = some sb' → p0balanceOf s'.st b = some rb' →
      (sb + rb) % twoPow64 = (sb' + rb') % twoPow64 ∧
      (inRange64 (sb - q) → inRange64 (rb + q) → sb + rb = sb' + rb')) := by
  constructor
  · intro s uid urole a b qs s' q sb rb sb' rb' h hq hsb hrb hsb' hrb'
    obtain ⟨su, ru, q0, hq0, -, hga, hgb, hga', hgb'⟩ := transfer_success_balances h
    rw [hq] at hq0
    obtain rfl : q0 = q := by
      simpa using hq0.symm
    unfold balanceOf at hsb hrb hsb' hrb'
    rw [hga] at hsb
    rw [hgb] at hrb
    rw [hga'] at hsb'
    rw [hgb'] at hrb'
    simp only [Option.some.injEq] at hsb hrb hsb' hrb'
    subst hsb
    subst hrb
    subst hsb'
    subst hrb'
    constructor
    · rw [wrap_add_wrap_emod]
      congr 1
      ring
    · intro hr1 hr2
      rw [wrap_eq_self hr1, wrap_eq_self hr2]
      ring
  · intro s a b qs s' q sb rb sb' rb' h hq hsb hrb hsb' hrb'
    obtain ⟨sb0, rb0, q0, hq0, -, hga, hgb, hga', hgb'⟩ := p0transfer_success_balances h
    rw [hq] at hq0
    obtain rfl : q0 = q := by
      simpa using hq0.symm
    rw [hga] at hsb
    rw [hgb] at hrb
    rw [hga'] at hsb'
    rw [hgb'] at hrb'
    simp only [Option.some.injEq] at hsb hrb hsb' hrb'
    subst hsb
    subst hrb
    subst hsb'
    subst hrb'
    constructor
    · rw [wrap_add_wrap_emod]
      congr 1
      ring
    · intro hr1 hr2
      rw [wrap_eq_self hr1, wrap_eq_self hr2]
      ring

theorem claim_C1_witness :
    ((100 : Int) + 100) % twoPow64 = ((70 : Int) + 130) % twoPow64 ∧
    (inRange64 ((100 : Int) - 30) → inRange64 ((100 : Int) + 30) →
      (100 : Int) + 100 = 70 + 130) :=
  claim_C1_conservation_mod.1 stubAliceBob "alice" "user" "alice" "bob" "30"
    (transfer stubAliceBob "alice" "user" ["alice", "bob", "30"]).2 30 100 100 70 130
    (by decide) (by decide) (by decide) (by decide) (by decide) (by decide)

/-- C2 (counterexample): a transfer with the accepted negative quantity
-50, from a committed non-negative state, returns success and leaves the
receiver stored balance at -40 < 0; and even with a nonnegative accepted
quantity, a receiver at the int64 maximum wraps to the negative int64
minimum. -/
theorem claim_C2_counterexample :
    StNonNeg stubAliceBob10.st ∧
    (transfer stubAliceBob10 "alice" "user" ["alice", "bob", "-50"]).1 = GoRes.ret none none ∧
    balanceOf ((transfer stubAliceBob10 "alice" "user" ["alice", "bob", "-50"]).2).st "bob" =
      some (-40) ∧
    (-40 : Int) < 0 ∧
    StNonNeg stubBobMax.st ∧
    qtyOkArgs ["alice", "bob", "1"] = true ∧
    (transfer stubBobMax "alice" "user" ["alice", "bob", "1"]).1 = GoRes.ret none none ∧
    balanceOf ((transfer stubBobMax "alice" "user" ["alice", "bob", "1"]).2).st "bob" =
      some minInt64 ∧
    minInt64 < 0 := by
  refine ⟨by decide, by decide, by decide, by decide, by decide, by decide, by decide,
    by decide, by decide⟩

/-- C2 (amended): for every sequence of committed operations (init, join,
transfer) starting from a non-negative state, in which every transfer
quantity the argument parser accepts is nonnegative and no receiver
update exceeds the int64 maximum, no stored participant record ever has
balance < 0; a negative accepted quantity, or a receiver update past the
int64 maximum (Go wrap-around), can drive the receiver stored balance
negative (see the counterexample). -/
theorem claim_C2_nonneg :
    ∀ (s : Stub) (ops : List OpCall), StNonNeg s.st →
      opsSafe s ops = true → StNonNeg ((runOps s ops).st) :=
  fun s _ h hops => runOps_nonneg s h hops

theorem claim_C2_witness :
    StNonNeg ((runOps stubEmpty
      [OpCall.initC [], OpCall.joinC "admin" "" ["alice", "user"],
       OpCall.joinC "admin" "" ["bob", "user"],
       OpCall.transferC "alice" "user" ["alice", "bob", "30"]]).st) :=
  claim_C2_nonneg stubEmpty
    [OpCall.initC [], OpCall.joinC "admin" "" ["alice", "user"],
     OpCall.joinC "admin" "" ["bob", "user"],
     OpCall.transferC "alice" "user" ["alice", "bob", "30"]]
    (by decide) (by decide)

set_option maxRecDepth 4096 in
/-- C3: when the receiver-record write of a transfer fails, exactly one
compensating write is attempted, but it goes to the bare key `senderId`
instead of the sender participant key: the sender participant record
keeps the debited balance 70 while the original record is written to a
stray key, so the compensation does not restore the sender record. -/
theorem claim_C3_rollback_wrong_key :
    (transfer stubC3 "alice" "user" ["alice", "bob", "30"]).1 =
      GoRes.fatal (tMsgRollbackOk "bob" storeFailMsg 30 "alice") ∧
    balanceOf ((transfer stubC3 "alice" "user" ["alice", "bob", "30"]).2).st "alice" =
      some 70 ∧
    wsGet ((transfer stubC3 "alice" "user" ["alice", "bob", "30"]).2).st "alice" =
      some (Val.vUser ⟨"alice", "user", 100⟩) ∧
    writeEvs ((transfer stubC3 "alice" "user" ["alice", "bob", "30"]).2).tr =
      [OpEv.putEv (usersKey "alice") (Val.vUser ⟨"alice", "user", 70⟩) true,
       OpEv.putEv (usersKey "bob") (Val.vUser ⟨"bob", "user", 130⟩) false,
       OpEv.putEv "alice" (Val.vUser ⟨"alice", "user", 100⟩) true] := by
  refine ⟨by decide, by decide, by decide, by decide⟩

/-- C4 (counterexample): in the role-less variant a join that passes all
preconditions writes the index first; here the second write (the
participant record) fails, the id is left in the index with no record,
and no compensating delete is attempted — refuting the claimed
record-before-index order and compensation for every join of the
repository. -/
theorem claim_C4_counterexample :
    (p0join p0stubJoinFail ["alice"]).1 = GoRes.ret none (some p0joinMsgBalInit) ∧
    wsGet ((p0join p0stubJoinFail ["alice"]).2).st joinedUsersStr =
      some (Val.vIndex ["alice"]) ∧
    wsGet ((p0join p0stubJoinFail ["alice"]).2).st "alice" = none ∧
    writeEvs ((p0join p0stubJoinFail ["alice"]).2).tr =
      [OpEv.putEv joinedUsersStr (Val.vIndex ["alice"]) true,
       OpEv.putEv "alice" (Val.vStr "100") false] := by
  refine ⟨by decide, by decide, by decide, by decide⟩

/-- C4 (amended): in the role-gated variant, a join that passes all
preconditions first writes the participant record (balance 100, given
role) and only then the index; when the index write fails after the
record write succeeded, exactly one compensating delete of the record is
attempted, and if that delete also fails the reported failure names the
orphaned participant key.  In the role-less variant the write order is
reversed and its compensation code is unreachable (see the
counterexample). -/
theorem claim_C4_join_order_and_compensation :
    ∀ (st : WS) (tr : List OpEv) (uid urole jid jrole : String) (l : List String) (b : Bool),
      wsGet st varJoinedUsersIndex = some (Val.vIndex l) →
      jid ∉ l →
      (uid = "admin" ∨ urole = roleAdmin) →
      underscoreFirst jid = false →
      (jrole = roleAdmin ∨ jrole = roleUser) →
      (join ⟨st, [false, false, true, b], tr⟩ uid urole [jid, jrole]).1 =
        GoRes.fatal (if b then joinMsgRollbackFail jid storeFailMsg storeFailMsg
                     else joinMsgRollbackOk jid storeFailMsg) ∧
      writeEvs ((join ⟨st, [false, false, true, b], tr⟩ uid urole [jid, jrole]).2).tr =
        writeEvs tr ++
          [OpEv.putEv (usersKey jid) (Val.vUser ⟨jid, jrole, initialAssetBalance⟩) true,
           OpEv.putEv varJoinedUsersIndex (Val.vIndex (l ++ [jid])) false,
           OpEv.delEv (usersKey jid) (!b)] ∧
      (b = true →
        wsGet ((join ⟨st, [false, false, true, b], tr⟩ uid urole [jid, jrole]).2).st
            (usersKey jid) = some (Val.vUser ⟨jid, jrole, initialAssetBalance⟩)) ∧
      (b = false →
        wsGet ((join ⟨st, [false, false, true, b], tr⟩ uid urole [jid, jrole]).2).st
            (usersKey jid) = none) :=
  fun _ _ _ _ _ _ _ _ hidx hnm hauth hund hrole =>
    join_idxfail_behavior hidx hnm hauth hund hrole

theorem claim_C4_witness :
    (join ⟨[(varJoinedUsersIndex, Val.vIndex [])], [false, false, true, true], []⟩
        "admin" "" ["alice", "user"]).1 =
      GoRes.fatal (if true then joinMsgRollbackFail "alice" storeFailMsg storeFailMsg
                   else joinMsgRollbackOk "alice" storeFailMsg) ∧
    writeEvs ((join ⟨[(varJoinedUsersIndex, Val.vIndex [])], [false, false, true, true], []⟩
        "admin" "" ["alice", "user"]).2).tr =
      writeEvs [] ++
        [OpEv.putEv (usersKey "alice") (Val.vUser ⟨"alice", "user", initialAssetBalance⟩) true,
         OpEv.putEv varJoinedUsersIndex (Val.vIndex ([] ++ ["alice"])) false,
         OpEv.delEv (usersKey "alice") (!true)] ∧
    (true = true →
      wsGet ((join ⟨[(varJoinedUsersIndex, Val.vIndex [])], [false, false, true, true], []⟩
          "admin" "" ["alice", "user"]).2).st (usersKey "alice") =
        some (Val.vUser ⟨"alice", "user", initialAssetBalance⟩)) ∧
    (true = false →
      wsGet ((join ⟨[(varJoinedUsersIndex, Val.vIndex [])], [false, false, true, true], []⟩
          "admin" "" ["alice", "user"]).2).st (usersKey "alice") = none) :=
  claim_C4_join_order_and_compensation [(varJoinedUsersIndex, Val.vIndex [])] []
    "admin" "" "alice" "user" [] true (by decide) (by decide) (Or.inl rfl) (by decide)
    (Or.inr (by decide))

/-- C5 (counterexample): a role-gated transfer whose invoker differs from
the sender can fail with the underscore argument error rather than the
permission-denied error; and the role-less variant consults no invoker at
all — the same transfer, whoever invokes it, succeeds and moves funds. -/
theorem claim_C5_counterexample :
    (transfer stubAliceBob "alice" "user" ["_sys", "bob", "5"]).1 = GoRes.fatal tMsgUnderscore ∧
    tMsgUnderscore ≠ tMsgPerm ∧
    (p0transfer p0stubAliceBob ["alice", "bob", "30"]).1 = GoRes.ret none none ∧
    p0balanceOf ((p0transfer p0stubAliceBob ["alice", "bob", "30"]).2).st "alice" = some 70 := by
  refine ⟨by decide, by decide, by decide, by decide⟩

/-- C5 (amended): in the role-gated variant, every three-argument transfer
whose invoker id differs from the sender argument fails before any
storage operation — the stub is returned untouched, so no participant
record and no index entry is written — and the failure is the
permission-denied error whenever the underscore and distinctness checks on
the ids pass (otherwise it is that earlier argument error).  The
role-less variant has no such gate (see the counterexample). -/
theorem claim_C5_not_sender_rejected :
    ∀ (s : Stub) (uid urole a b qs : String), uid ≠ a →
      (transfer s uid urole [a, b, qs]).2 = s ∧
      (transfer s uid urole [a, b, qs]).1 ≠ GoRes.ret none none ∧
      (underscoreFirst a = false → underscoreFirst b = false → a ≠ b →
        (transfer s uid urole [a, b, qs]).1 = GoRes.fatal tMsgPerm) :=
  fun _ _ _ _ _ _ hne => transfer_not_sender hne

theorem claim_C5_witness :
    (transfer stubAliceBob "mallory" "user" ["alice", "bob", "5"]).2 = stubAliceBob ∧
    (transfer stubAliceBob "mallory" "user" ["alice", "bob", "5"]).1 ≠ GoRes.ret none none ∧
    (underscoreFirst "alice" = false → underscoreFirst "bob" = false → "alice" ≠ "bob" →
      (transfer stubAliceBob "mallory" "user" ["alice", "bob", "5"]).1 =
        GoRes.fatal tMsgPerm) :=
  claim_C5_not_sender_rejected stubAliceBob "mallory" "user" "alice" "bob" "5" (by decide)

/-- C6 (counterexample): a join whose joinee id is already in the index
but whose role argument is invalid fails with the invalid-role error, not
with the already-exists error — so the already-exists failure does not
hold regardless of the role arguments. -/
theorem claim_C6_counterexample :
    wsGet stubAliceOnly.st varJoinedUsersIndex = some (Val.vIndex ["alice"]) ∧
    (join stubAliceOnly "admin" "admin" ["alice", "banana"]).1 = GoRes.fatal joinMsgBadRole ∧
    joinMsgBadRole ≠ joinMsgAlreadyExists := by
  refine ⟨by decide, by decide, by decide⟩

/-- C6 (amended): the joined-identifiers index never acquires a duplicate
id across any sequence of committed operations, and any join whose joinee
id is already in the index fails with no state change; the failure is the
already-exists error whenever the argument-count, authorization, prefix
and role checks pass (otherwise it is that earlier error). -/
theorem claim_C6_index_nodup :
    (∀ (s : Stub) (ops : List OpCall), StIdxNodup s.st → StIdxNodup ((runOps s ops).st)) ∧
    (∀ (s : Stub) (uid urole jid jrole : String) (l : List String),
      s.faults = [] → wsGet s.st varJoinedUsersIndex = some (Val.vIndex l) → jid ∈ l →
      ((join s uid urole [jid, jrole]).2).st = s.st ∧
      (join s uid urole [jid, jrole]).1 ≠ GoRes.ret none none ∧
      ((uid = "admin" ∨ urole = roleAdmin) → underscoreFirst jid = false →
        (jrole = roleAdmin ∨ jrole = roleUser) →
        (join s uid urole [jid, jrole]).1 = GoRes.fatal joinMsgAlreadyExists)) :=
  ⟨fun s _ h => runOps_nodup s h,
   fun _ _ _ _ _ _ hf hidx hmem => join_duplicate_rejected hf hidx hmem⟩

theorem claim_C6_witness :
    ((join stubAliceOnly "admin" "admin" ["alice", "user"]).2).st = stubAliceOnly.st ∧
    (join stubAliceOnly "admin" "admin" ["alice", "user"]).1 ≠ GoRes.ret none none ∧
    (("admin" = "admin" ∨ "admin" = roleAdmin) → underscoreFirst "alice" = false →
      ("user" = roleAdmin ∨ "user" = roleUser) →
      (join stubAliceOnly "admin" "admin" ["alice", "user"]).1 =
        GoRes.fatal joinMsgAlreadyExists) :=
  claim_C6_index_nodup.2 stubAliceOnly "admin" "admin" "alice" "user" ["alice"]
    rfl (by decide) (by decide)

/-- C7 (counterexample): a getassetbalance query for a never-joined id
does not return a structured not-found error: the role-gated variant
aborts with the fatal unmarshal panic (no recover exists in Query), and
the role-less variant returns success with nil bytes. -/
theorem claim_C7_counterexample :
    (Query stubInitialized "getassetbalance" ["alice"]).1 =
      GoRes.fatal detailsUnmarshalFatalMsg ∧
    (p0Query p0stubInitialized "getassetbalance" ["alice"]).1 = GoRes.ret none none := by
  refine ⟨by decide, by decide⟩

/-- C7 (amended): a getassetbalance query for a never-joined id performs
no write to world state and leaves the state unchanged; but instead of a
structured not-found error, the role-gated variant dies with the fatal
unmarshal message and the role-less variant returns success with nil
bytes. -/
theorem claim_C7_missing_id_query :
    (∀ (s : Stub) (a : String), s.faults = [] → wsGet s.st (usersKey a) = none →
      (Query s "getassetbalance" [a]).1 = GoRes.fatal detailsUnmarshalFatalMsg ∧
      ((Query s "getassetbalance" [a]).2).st = s.st ∧
      writeEvs ((Query s "getassetbalance" [a]).2).tr = writeEvs s.tr) ∧
    (∀ (s : Stub) (a : String), s.faults = [] → wsGet s.st a = none →
      (p0Query s "getassetbalance" [a]).1 = GoRes.ret none none ∧
      ((p0Query s "getassetbalance" [a]).2).st = s.st ∧
      writeEvs ((p0Query s "getassetbalance" [a]).2).tr = writeEvs s.tr) :=
  ⟨fun _ _ hf hg => query_missing_user hf hg,
   fun _ _ hf hg => p0query_missing_user hf hg⟩

theorem claim_C7_witness :
    (Query stubInitialized "getassetbalance" ["alice"]).1 =
      GoRes.fatal detailsUnmarshalFatalMsg ∧
    ((Query stubInitialized "getassetbalance" ["alice"]).2).st = stubInitialized.st ∧
    writeEvs ((Query stubInitialized "getassetbalance" ["alice"]).2).tr =
      writeEvs stubInitialized.tr :=
  claim_C7_missing_id_query.1 stubInitialized "alice" rfl (by decide)

/-- C8: a successful role-gated join of a fresh id writes that
participant record with balance exactly 100, so a subsequent
getassetbalance of that id returns 100; concretely, init() then
join("alice","user") by the bootstrap identity then
getassetbalance("alice") yields the bytes "100". -/
theorem claim_C8_initial_balance :
    (∀ (s : Stub) (uid urole jid jrole : String) (s' : Stub),
      join s uid urole [jid, jrole] = (GoRes.ret none none, s') →
      balanceOf s'.st jid = some 100) ∧
    (Query scenarioC8 "getassetbalance" ["alice"]).1 = GoRes.ret (some "100") none :=
  ⟨fun _ _ _ _ _ _ h => join_success_balance h, by decide⟩

theorem claim_C8_witness :
    balanceOf ((join stubInitialized "admin" "" ["alice", "user"]).2).st "alice" = some 100 :=
  claim_C8_initial_balance.1 stubInitialized "admin" "" "alice" "user"
    (join stubInitialized "admin" "" ["alice", "user"]).2 (by decide)

/-- C9: contrary to the claim, the bootstrap identity "admin" cannot
perform the very first join: Invoke resolves the invoker record before
dispatching, and for any record-less identity — "admin" included — that
lookup panics (unmarshal of nil bytes), so the call returns the recovered
error, no record is created, and nothing is written. -/
theorem claim_C9_bootstrap_rejected :
    (invoke stubInitialized "admin" "join" ["alice", "user"]).1 =
      InvokeOut.retOut (invHdr ++ "Details: " ++ detailsUnmarshalFatalMsg) ∧
    wsGet ((invoke stubInitialized "admin" "join" ["alice", "user"]).2).st
      (usersKey "alice") = none ∧
    writeEvs ((invoke stubInitialized "admin" "join" ["alice", "user"]).2).tr = [] := by
  refine ⟨by decide, by decide, by decide⟩

/-- C10: contrary to the claim, the deferred recovery handler fails on
every non-panicking path: recover() yields nil there, the type assertion
recover().(string) itself panics, and Invoke crashes instead of returning
— both on a successful dispatch (init) and on an ordinary error return
(unknown function name). -/
theorem claim_C10_handler_crashes :
    (invoke stubAdminJoined "admin" "init" []).1 = InvokeOut.crashOut ∧
    (invoke stubAdminJoined "admin" "nosuchfn" []).1 = InvokeOut.crashOut := by
  refine ⟨by decide, by decide⟩

end AssetTransfer
